import Mathlib

/-!
Shallow embedding of the rustfs file service (src/packages/rustfs/src/main.rs).

The metadata database is modelled as a list of rows (`List FileRow`); each SQL
statement of the source is translated into an explicit list operation.  The
object store and the temp-file area are modelled as finite association lists.
External cryptographic libraries (SHA-256, HMAC-SHA256, the age codec) are
opaque in the source as well; they enter the embedding as function parameters,
and only the properties the code actually relies on (determinism, byte-ness,
and — where a theorem needs it — injectivity) appear as hypotheses.
Rust `i64` values are modelled as `Int`, byte strings as `List Nat`.
-/

deriving instance DecidableEq for Except

namespace Rustfs

/-- Rust `str::trim` over the underlying characters (the service only ever
trims ASCII content).  Defined by list recursion so that concrete instances
reduce inside the kernel, which `String.trim` does not. -/
def trimStr (s : String) : String :=
  String.mk (((s.data.dropWhile Char.isWhitespace).reverse.dropWhile
    Char.isWhitespace).reverse)

/-- Rust `str::to_lowercase` over the underlying characters. -/
def lowerStr (s : String) : String := String.mk (s.data.map Char.toLower)

/-- Rust `str::replace('"', "_")` — the single-character replacement used for
the Content-Disposition filename. -/
def replaceQuote (s : String) : String :=
  String.mk (s.data.map (fun c => if c == '"' then '_' else c))

/-- Error taxonomy of the service, from `enum AppError` in main.rs. -/
inductive AppError where
  | Unauthorized : AppError
  | Forbidden : AppError
  | InvalidRequest : String → AppError
  | NotFound : AppError
  | Io : String → AppError
  | Db : String → AppError
  | Crypto : String → AppError
deriving DecidableEq, Repr

/-- One row of the `files` table (schema in `init_db`, main.rs lines 262-296).
Note that the schema declares `file_id TEXT PRIMARY KEY`: `file_id` alone is
the primary key of the table, a fact reflected in `insert_file` below. -/
structure FileRow where
  file_id : String
  tenant_id : String
  session_id : Option String
  filename : String
  mime : Option String
  size : Int
  sha256 : String
  created_at_ms : Int
  source : Option String
  encrypted : Bool
  storage_path : String
  deleted_at_ms : Option Int
  extract_status : Option String
  extract_updated_at_ms : Option Int
  extract_attempt : Option Int
  extract_error : Option String
  annotations_json : Option String
deriving DecidableEq, Repr

/-- The WHERE clause `tenant_id=? AND file_id=? AND deleted_at_ms IS NULL`
shared by every targeted read and update in main.rs. -/
def liveMatch (tenant fid : String) (r : FileRow) : Bool :=
  r.tenant_id == tenant && r.file_id == fid && r.deleted_at_ms == none

/-- The dedup / targeted-read SELECT: first row satisfying `liveMatch`. -/
def lookup_live (db : List FileRow) (tenant fid : String) : Option FileRow :=
  db.find? (liveMatch tenant fid)

/-- `INSERT INTO files(...)`.  SQLite enforces the `file_id TEXT PRIMARY KEY`
declared in `init_db` over all rows of the table — including tombstoned rows
and rows of other tenants — and the source maps the resulting rusqlite error
to `AppError::Db`. -/
def insert_file (db : List FileRow) (r : FileRow) :
    Except AppError (List FileRow) :=
  if db.any (fun x => x.file_id == r.file_id) then
    .error (.Db "UNIQUE constraint failed: files.file_id")
  else
    .ok (db ++ [r])

/-- `{ok, file_id, sha256, size, encrypted}` for `POST /v1/files`. -/
structure IngestResponse where
  ok : Bool
  file_id : String
  sha256 : String
  size : Int
  encrypted : Bool
deriving DecidableEq, Repr

structure TombstoneResponse where
  ok : Bool
  file_id : String
  tombstoned : Bool
deriving DecidableEq, Repr

structure AnnotationsResponse where
  ok : Bool
  file_id : String
  updated_at_ms : Int
deriving DecidableEq, Repr

structure ExtractStatusResponse where
  ok : Bool
  file_id : String
  status : String
deriving DecidableEq, Repr

/-- The JSON projection of a row returned by `meta` / `search` (struct
`FileMeta` in main.rs).  `annotations` carries the raw stored JSON text; the
source additionally decodes it into a `serde_json::Value`, which is purely a
re-presentation of the same string. -/
structure FileMeta where
  file_id : String
  tenant_id : String
  session_id : Option String
  filename : String
  mime : Option String
  size : Int
  sha256 : String
  created_at_ms : Int
  source : Option String
  encrypted : Bool
  extract_status : Option String
  extract_updated_at_ms : Option Int
  extract_attempt : Option Int
  extract_error : Option String
  annotations : Option String
deriving DecidableEq, Repr

def fileMetaOf (r : FileRow) : FileMeta :=
  { file_id := r.file_id
    tenant_id := r.tenant_id
    session_id := r.session_id
    filename := r.filename
    mime := r.mime
    size := r.size
    sha256 := r.sha256
    created_at_ms := r.created_at_ms
    source := r.source
    encrypted := r.encrypted
    extract_status := r.extract_status
    extract_updated_at_ms := r.extract_updated_at_ms
    extract_attempt := r.extract_attempt
    extract_error := r.extract_error
    annotations := r.annotations_json }

/-- In-memory API key table entry (`struct ApiKey`). -/
structure ApiKey where
  key : String
  tenant_id : String
  role : Option String
deriving DecidableEq, Repr

structure AuthContext where
  tenant_id : String
  role : String
  key_id : String
deriving DecidableEq, Repr

/-- `normalize_role` from main.rs lines 207-213. -/
def normalize_role (role : Option String) : String :=
  let r := lowerStr (trimStr (role.getD "admin"))
  if r = "reader" ∨ r = "writer" ∨ r = "admin" then r else "admin"

/-- `auth_from_headers` (main.rs lines 222-256).  `keyIdOf` stands for
`key_id_from_raw` (first 8 bytes of SHA-256 of the raw key, hex-encoded); the
hash itself is an external library call and only feeds audit records.
`x_api_key` is the value of the `x-api-key` header, if present. -/
def auth_from_headers (keyIdOf : String → String) (require_api_key : Bool)
    (api_keys : List (String × ApiKey)) (x_api_key : Option String)
    (tenant_hint : Option String) : Except AppError AuthContext :=
  if ¬ require_api_key then
    match tenant_hint with
    | some t =>
      if trimStr t ≠ "" then
        .ok { tenant_id := trimStr t, role := "admin", key_id := "dev" }
      else
        .ok { tenant_id := "default", role := "admin", key_id := "dev" }
    | none => .ok { tenant_id := "default", role := "admin", key_id := "dev" }
  else
    match (x_api_key.map trimStr).filter (fun s => s ≠ "") with
    | none => .error .Unauthorized
    | some key =>
      match (api_keys.find? (fun kv => kv.1 == key)).map Prod.snd with
      | none => .error .Unauthorized
      | some entry =>
        .ok { tenant_id := entry.tenant_id
              role := normalize_role entry.role
              key_id := keyIdOf key }

/-- `assert_can_read` (main.rs lines 368-373). -/
def assert_can_read (a : AuthContext) : Except AppError Unit :=
  if a.role = "reader" ∨ a.role = "writer" ∨ a.role = "admin" then .ok ()
  else .error .Forbidden

/-- `assert_can_write` (main.rs lines 375-380). -/
def assert_can_write (a : AuthContext) : Except AppError Unit :=
  if a.role = "writer" ∨ a.role = "admin" then .ok ()
  else .error .Forbidden

/-- Outcomes of the individual I/O steps of one audit append.  In the model a
step either succeeds or fails; the source inspects exactly these outcomes. -/
structure AuditIo where
  create_dir_ok : Bool
  serialize_ok : Bool
  open_ok : Bool
  write_ok : Bool
deriving DecidableEq, Repr

/-- `append_audit` (main.rs lines 315-344).  The audit log is the list of its
lines.  The Rust function returns `()`; embedding it into `Except AppError`
makes the absence of any propagated error a provable statement rather than a
typing accident: every `return` of the source becomes an `.ok`. -/
def append_audit (audit_log_path : Option String) (path_has_parent : Bool)
    (io : AuditIo) (line : String) (log : List String) :
    Except AppError (List String) :=
  match audit_log_path with
  | none => .ok log
  | some _ =>
    if ¬ path_has_parent then .ok log
    else if ¬ io.create_dir_ok then .ok log
    else if ¬ io.serialize_ok then .ok log
    else if ¬ io.open_ok then .ok log
    else if ¬ io.write_ok then .ok log
    else .ok (log ++ [line])

/-- `meta` handler body after auth (main.rs lines 770-818): trim the path
parameter, reject empty, targeted live read, 404 when absent. -/
def meta_core (db : List FileRow) (tenant : String) (file_id_raw : String) :
    Except AppError FileMeta :=
  let file_id := trimStr file_id_raw
  if file_id = "" then .error (.InvalidRequest "file_id required")
  else
    match lookup_live db tenant file_id with
    | some r => .ok (fileMetaOf r)
    | none => .error .NotFound

/-- `upsert_annotations` handler body after auth (main.rs lines 889-936).
`annotations_json` is the serde serialization of the request's `annotations`
value, produced before the UPDATE in the source.  The UPDATE sets exactly
`annotations_json` and `extract_updated_at_ms` on live matching rows; zero
affected rows becomes NotFound. -/
def upsert_annotations_core (db : List FileRow) (tenant : String)
    (file_id_raw : String) (annotations_json : String) (now : Int) :
    Except AppError (List FileRow × AnnotationsResponse) :=
  let file_id := trimStr file_id_raw
  if file_id = "" then .error (.InvalidRequest "file_id required")
  else
    let db2 := db.map (fun r =>
      if liveMatch tenant file_id r then
        { r with annotations_json := some annotations_json
                 extract_updated_at_ms := some now }
      else r)
    let n := db.countP (fun r => liveMatch tenant file_id r)
    if n = 0 then .error .NotFound
    else .ok (db2, { ok := true, file_id := file_id, updated_at_ms := now })

/-- `set_extract_status` handler body after auth (main.rs lines 949-1005).
The UPDATE sets status, error (absent body field becomes the empty string),
`extract_updated_at_ms`, and `extract_attempt = COALESCE(extract_attempt,0)+1`
on live matching rows; zero affected rows becomes NotFound. -/
def set_extract_status_core (db : List FileRow) (tenant : String)
    (file_id_raw : String) (status_raw : String) (error_opt : Option String)
    (now : Int) : Except AppError (List FileRow × ExtractStatusResponse) :=
  let file_id := trimStr file_id_raw
  if file_id = "" then .error (.InvalidRequest "file_id required")
  else
    let status := trimStr status_raw
    if status = "" then .error (.InvalidRequest "status required")
    else
      let error := error_opt.getD ""
      let db2 := db.map (fun r =>
        if liveMatch tenant file_id r then
          { r with extract_status := some status
                   extract_updated_at_ms := some now
                   extract_attempt := some ((r.extract_attempt.getD 0) + 1)
                   extract_error := some error }
        else r)
      let n := db.countP (fun r => liveMatch tenant file_id r)
      if n = 0 then .error .NotFound
      else .ok (db2, { ok := true, file_id := file_id, status := status })

/-- `tombstone` handler body after auth (main.rs lines 1374-1413).  The UPDATE
sets `deleted_at_ms` on live matching rows.  Zero affected rows is NOT
translated to NotFound here: the handler always answers 200 and reports the
affected-row count through the `tombstoned` flag. -/
def tombstone_core (db : List FileRow) (tenant : String)
    (file_id_raw : String) (ts : Int) :
    Except AppError (List FileRow × TombstoneResponse) :=
  let file_id := trimStr file_id_raw
  if file_id = "" then .error (.InvalidRequest "file_id required")
  else
    let db2 := db.map (fun r =>
      if liveMatch tenant file_id r then { r with deleted_at_ms := some ts }
      else r)
    let n := db.countP (fun r => liveMatch tenant file_id r)
    .ok (db2, { ok := true, file_id := file_id, tombstoned := decide (n > 0) })

/-! ## Signed-link token subsystem (main.rs lines 1114-1162)

Token text is modelled as a byte list.  HMAC-SHA256 is an external library;
it enters as the parameter `hmacFn` (key and message to 32 digest bytes). -/

/-- UTF-8 bytes of a Lean string; all strings handled by the token subsystem
are ASCII (enforced by hypotheses where it matters), where code points and
UTF-8 bytes coincide. -/
def strBytes (s : String) : List Nat := s.data.map Char.toNat

/-- Inverse of `strBytes` on ASCII byte lists. -/
def bytesToStr (l : List Nat) : String := String.mk (l.map Char.ofNat)

/-- The URL_SAFE alphabet of the base64 crate: A-Z, a-z, 0-9, -, _. -/
def b64Alphabet : List Nat :=
  [65, 66, 67, 68, 69, 70, 71, 72, 73, 74, 75, 76, 77, 78, 79, 80, 81, 82,
   83, 84, 85, 86, 87, 88, 89, 90,
   97, 98, 99, 100, 101, 102, 103, 104, 105, 106, 107, 108, 109, 110, 111,
   112, 113, 114, 115, 116, 117, 118, 119, 120, 121, 122,
   48, 49, 50, 51, 52, 53, 54, 55, 56, 57, 45, 95]

/-- Sextet value to alphabet byte (total; all call sites pass values < 64). -/
def sixToChar (n : Nat) : Nat := b64Alphabet.getD n 65

/-- Position of a byte in a list, or `none`. -/
def charIndexIn : List Nat → Nat → Option Nat
  | [], _ => none
  | a :: rest, c => if a = c then some 0 else (charIndexIn rest c).map (· + 1)

/-- Alphabet byte back to its sextet value; `none` for bytes outside the
alphabet (the crate's decode error). -/
def charToSix (c : Nat) : Option Nat := charIndexIn b64Alphabet c

/-- `URL_SAFE_NO_PAD.encode`: three input bytes become four alphabet bytes;
a final group of one or two bytes becomes two or three alphabet bytes. -/
def b64encode : List Nat → List Nat
  | [] => []
  | [a] => [sixToChar (a / 4 % 64), sixToChar (a % 4 * 16)]
  | [a, b] => [sixToChar (a / 4 % 64), sixToChar (a % 4 * 16 + b / 16 % 16),
               sixToChar (b % 16 * 4)]
  | a :: b :: c :: rest =>
    sixToChar (a / 4 % 64) :: sixToChar (a % 4 * 16 + b / 16 % 16) ::
    sixToChar (b % 16 * 4 + c / 64 % 4) :: sixToChar (c % 64) :: b64encode rest

/-- `URL_SAFE_NO_PAD.decode`: strict — rejects bytes outside the alphabet,
a trailing group of one byte, and nonzero trailing bits (the crate's default
`decode_allow_trailing_bits = false`). -/
def b64decode : List Nat → Option (List Nat)
  | [] => some []
  | [_] => none
  | [p, q] => do
    let x ← charToSix p
    let y ← charToSix q
    if y % 16 ≠ 0 then none else some [x * 4 + y / 16]
  | [p, q, r] => do
    let x ← charToSix p
    let y ← charToSix q
    let z ← charToSix r
    if z % 4 ≠ 0 then none else some [x * 4 + y / 16, y % 16 * 16 + z / 4]
  | p :: q :: r :: s :: rest => do
    let x ← charToSix p
    let y ← charToSix q
    let z ← charToSix r
    let w ← charToSix s
    let tail ← b64decode rest
    some ((x * 4 + y / 16) :: (y % 16 * 16 + z / 4) :: (z % 4 * 64 + w) :: tail)

/-- Rust `str::split('.')`: over byte 46; k separators yield k+1 pieces. -/
def splitOnDot : List Nat → List (List Nat)
  | [] => [[]]
  | c :: rest =>
    if c = 46 then [] :: splitOnDot rest
    else
      match splitOnDot rest with
      | h :: t => (c :: h) :: t
      | [] => [[c]]

/-- `struct DownloadTokenPayload`; its strings carried as UTF-8 bytes. -/
structure DownloadTokenPayload where
  tenant_id : List Nat
  file_id : List Nat
  exp_ms : Int
deriving DecidableEq, Repr

/-- Decimal digits (ASCII) of a positive natural, most significant first;
structural recursion on a fuel bound so that concrete tokens reduce inside
the kernel. -/
def natDecAux : Nat → Nat → List Nat
  | 0, _ => []
  | fuel + 1, n => if n = 0 then [] else natDecAux fuel (n / 10) ++ [n % 10 + 48]

/-- Decimal digits (ASCII) of a natural number, most significant first. -/
def natDec (n : Nat) : List Nat :=
  if n = 0 then [48] else natDecAux n n

/-- serde's rendering of an `i64`. -/
def intDec (i : Int) : List Nat :=
  if i < 0 then 45 :: natDec i.natAbs else natDec i.toNat

/-- `serde_json::to_vec` of a `DownloadTokenPayload`: serde serializes struct
fields in declaration order with no whitespace, escaping only `"`, `\` and
control characters (which the round-trip hypotheses exclude). -/
def jsonSer (p : DownloadTokenPayload) : List Nat :=
  strBytes "\x7b\"tenant_id\":\"" ++ p.tenant_id ++
  strBytes "\",\"file_id\":\"" ++ p.file_id ++
  strBytes "\",\"exp_ms\":" ++ intDec p.exp_ms ++ [125]

/-- Drop an expected literal byte run, returning the remainder. -/
def dropLit : List Nat → List Nat → Option (List Nat)
  | [], l => some l
  | _ :: _, [] => none
  | a :: rest, b :: l => if a = b then dropLit rest l else none

/-- Scan a JSON string body up to its closing quote (byte 34). -/
def takeUntilQuote : List Nat → Option (List Nat × List Nat)
  | [] => none
  | c :: rest =>
    if c = 34 then some ([], rest)
    else (takeUntilQuote rest).map (fun pr => (c :: pr.1, pr.2))

/-- Greedily consume ASCII digits onto an accumulator. -/
def parseDigits : List Nat → Nat → Nat × List Nat
  | c :: rest, acc =>
    if 48 ≤ c ∧ c ≤ 57 then parseDigits rest (acc * 10 + (c - 48))
    else (acc, c :: rest)
  | [], acc => (acc, [])

/-- At least one digit, then greedy. -/
def parseNat1 : List Nat → Option (Nat × List Nat)
  | c :: rest =>
    if 48 ≤ c ∧ c ≤ 57 then some (parseDigits rest (c - 48)) else none
  | [] => none

/-- Decimal integer with optional leading minus. -/
def parseInt (l : List Nat) : Option (Int × List Nat) :=
  match l with
  | [] => none
  | c :: rest =>
    if c = 45 then (parseNat1 rest).map (fun pr => (-(pr.1 : Int), pr.2))
    else (parseNat1 (c :: rest)).map (fun pr => ((pr.1 : Int), pr.2))

/-- `serde_json::from_slice::<DownloadTokenPayload>` restricted to the shape
`serde_json::to_vec` produces for this struct (the only shape any theorem
feeds it; serde accepts more general JSON). -/
def jsonParse (l : List Nat) : Option DownloadTokenPayload :=
  match dropLit (strBytes "\x7b\"tenant_id\":\"") l with
  | none => none
  | some r1 =>
    match takeUntilQuote r1 with
    | none => none
    | some (t, r2) =>
      match dropLit (strBytes ",\"file_id\":\"") r2 with
      | none => none
      | some r3 =>
        match takeUntilQuote r3 with
        | none => none
        | some (f, r4) =>
          match dropLit (strBytes ",\"exp_ms\":") r4 with
          | none => none
          | some r5 =>
            match parseInt r5 with
            | some (e, [125]) =>
              some { tenant_id := t, file_id := f, exp_ms := e }
            | _ => none

/-- `sign_token` (main.rs lines 1123-1133): HMAC over the Base64 TEXT of the
payload; token is `payload_b64 ++ "." ++ sig_b64`.  The source's two error
paths (serde failure, HMAC key-length failure) cannot occur for this struct
and HMAC-SHA256, so the embedding is total. -/
def sign_token (hmacFn : List Nat → List Nat → List Nat)
    (signing_key : List Nat) (p : DownloadTokenPayload) : List Nat :=
  let payload_b64 := b64encode (jsonSer p)
  payload_b64 ++ 46 :: b64encode (hmacFn signing_key payload_b64)

/-- `verify_token` (main.rs lines 1135-1162): split on `.` (exactly two
parts), decode the signature, recompute the HMAC over the encoded payload
bytes and compare, decode and parse the payload, reject `exp_ms <= now`. -/
def verify_token (hmacFn : List Nat → List Nat → List Nat)
    (signing_key : List Nat) (token : List Nat) (now : Int) :
    Except AppError DownloadTokenPayload :=
  match splitOnDot token with
  | [payload_b64, sig_b64] =>
    match b64decode sig_b64 with
    | none => .error (.InvalidRequest "invalid token")
    | some sig =>
      if hmacFn signing_key payload_b64 = sig then
        match b64decode payload_b64 with
        | none => .error (.InvalidRequest "invalid token")
        | some payload_json =>
          match jsonParse payload_json with
          | none => .error (.InvalidRequest "invalid token")
          | some payload =>
            if payload.exp_ms ≤ now then .error .Unauthorized
            else .ok payload
      else .error .Unauthorized
  | _ => .error (.InvalidRequest "invalid token")

/-! ## Stores, ingest, download, links -/

/-- ASCII whitespace test (the subset of Rust `str::trim` the service's
ASCII tokens can contain). -/
def isWsB (b : Nat) : Bool := b == 32 || b == 9 || b == 10 || b == 13

/-- `str::trim` on token bytes (`q.token.trim()` in `public_download`). -/
def trimAsciiWsBytes (l : List Nat) : List Nat :=
  ((l.dropWhile isWsB).reverse.dropWhile isWsB).reverse

/-- On-disk state: metadata DB, object files (relative path to bytes), and
the names of live temp files under `tmp/`. -/
structure Store where
  db : List FileRow
  objects : List (String × List Nat)
  tmp : List String
deriving DecidableEq, Repr

/-- Outcome of the multipart loop of `ingest` (main.rs lines 398-462):
text fields collected (`session_id`/`source` already trimmed-to-none by the
loop), the streamed file body, and the fresh temp file's name. -/
structure MultipartData where
  tenant_hint : Option String
  session_id : Option String
  source : Option String
  filename : Option String
  mime : Option String
  body : Option (List Nat)
  tmpName : String
deriving DecidableEq, Repr

/-- `ingest` after the multipart loop (main.rs lines 464-634).  `H` is the
hex SHA-256 of the external sha2 crate; `encryptFn` is the age encryption of
a byte stream under a passphrase.  On the dedup-hit path the temp file is
removed and nothing else changes; otherwise the blob is published (for the
encrypted path the net effect of rename-encrypt-delete is the ciphertext at
`<fid>.age`) and a fresh row inserted.  The INSERT enforces the table's
`file_id` primary key via `insert_file`. -/
def ingest (H : List Nat → String) (keyIdOf : String → String)
    (require_api_key : Bool) (api_keys : List (String × ApiKey))
    (x_api_key : Option String) (master_key : Option String)
    (encryptFn : String → List Nat → List Nat) (st : Store)
    (m : MultipartData) (created_at_ms extract_now : Int) :
    Except AppError (Store × IngestResponse) := do
  let auth ← auth_from_headers keyIdOf require_api_key api_keys x_api_key
    m.tenant_hint
  let _ ← assert_can_write auth
  let tenant_id := auth.tenant_id
  match m.body with
  | none => .error (.InvalidRequest "missing multipart field: file")
  | some body =>
    let filename := m.filename.getD "file"
    let sha256 := H body
    let file_id := sha256
    let encrypted := master_key.isSome
    let final_path_plain := "objects/" ++ tenant_id ++ "/" ++ file_id
    let final_path :=
      if encrypted then final_path_plain ++ ".age" else final_path_plain
    match lookup_live st.db tenant_id file_id with
    | some r =>
      .ok ({ st with tmp := st.tmp.erase m.tmpName },
           { ok := true, file_id := r.file_id, sha256 := r.sha256,
             size := r.size, encrypted := r.encrypted })
    | none =>
      let objects2 :=
        match master_key with
        | some key => st.objects ++ [(final_path, encryptFn key body)]
        | none => st.objects ++ [(final_path, body)]
      let row : FileRow :=
        { file_id := file_id, tenant_id := tenant_id,
          session_id := m.session_id, filename := filename, mime := m.mime,
          size := (body.length : Int), sha256 := sha256,
          created_at_ms := created_at_ms, source := m.source,
          encrypted := encrypted, storage_path := final_path,
          deleted_at_ms := none, extract_status := some "pending",
          extract_updated_at_ms := some extract_now,
          extract_attempt := some 0, extract_error := none,
          annotations_json := none }
      match insert_file st.db row with
      | .error e => .error e
      | .ok db2 =>
        .ok ({ db := db2, objects := objects2,
               tmp := st.tmp.erase m.tmpName },
             { ok := true, file_id := file_id, sha256 := sha256,
               size := (body.length : Int), encrypted := encrypted })

/-- The streaming response's metadata (headers and chosen source); body
streaming itself is I/O. -/
structure DownloadOk where
  filename_disposition : String
  mime : Option String
  encrypted : Bool
  storage_path : String
deriving DecidableEq, Repr

/-- `storage_path.trim_start_matches('/')`. -/
def trimLeadingSlash (s : String) : String :=
  String.mk (s.data.dropWhile (fun c => c == '/'))

/-- Shared tail of `download` and `public_download` (main.rs lines 1030-1111
and 1280-1362): targeted live read, 404 when the row is absent, 404 (not 500)
when the blob is missing on disk, then plain streaming or — for encrypted
blobs, requiring the master key — streaming decryption. -/
def download_core (master_key : Option String) (db : List FileRow)
    (objects : List (String × List Nat)) (tenant file_id : String) :
    Except AppError DownloadOk :=
  match lookup_live db tenant file_id with
  | none => .error .NotFound
  | some row =>
    let rel := trimLeadingSlash row.storage_path
    if ¬ objects.any (fun kv => kv.1 == rel) then .error .NotFound
    else if ¬ row.encrypted then
      .ok { filename_disposition := replaceQuote row.filename,
            mime := row.mime, encrypted := false,
            storage_path := row.storage_path }
    else
      match master_key with
      | none => .error (.Crypto "encrypted file but no master key configured")
      | some _ =>
        .ok { filename_disposition := replaceQuote row.filename,
              mime := row.mime, encrypted := true,
              storage_path := row.storage_path }

/-- `meta` handler (main.rs lines 763-819); resolves auth with NO tenant
hint. -/
def meta (keyIdOf : String → String) (require_api_key : Bool)
    (api_keys : List (String × ApiKey)) (x_api_key : Option String)
    (db : List FileRow) (file_id_raw : String) : Except AppError FileMeta := do
  let auth ← auth_from_headers keyIdOf require_api_key api_keys x_api_key none
  let _ ← assert_can_read auth
  meta_core db auth.tenant_id file_id_raw

/-- `download` handler (main.rs lines 1008-1112); auth with NO tenant hint,
then path-parameter checks, then the shared core. -/
def download (keyIdOf : String → String) (require_api_key : Bool)
    (api_keys : List (String × ApiKey)) (x_api_key : Option String)
    (master_key : Option String) (db : List FileRow)
    (objects : List (String × List Nat)) (file_id_raw : String) :
    Except AppError DownloadOk := do
  let auth ← auth_from_headers keyIdOf require_api_key api_keys x_api_key none
  let _ ← assert_can_read auth
  let file_id := trimStr file_id_raw
  if file_id = "" then .error (.InvalidRequest "file_id required")
  else download_core master_key db objects auth.tenant_id file_id

/-- `upsert_annotations` handler (main.rs lines 879-937). -/
def upsert_annotations (keyIdOf : String → String) (require_api_key : Bool)
    (api_keys : List (String × ApiKey)) (x_api_key : Option String)
    (db : List FileRow) (file_id_raw annotations_json : String) (now : Int) :
    Except AppError (List FileRow × AnnotationsResponse) := do
  let auth ← auth_from_headers keyIdOf require_api_key api_keys x_api_key none
  let _ ← assert_can_write auth
  upsert_annotations_core db auth.tenant_id file_id_raw annotations_json now

/-- `set_extract_status` handler (main.rs lines 939-1006). -/
def set_extract_status (keyIdOf : String → String) (require_api_key : Bool)
    (api_keys : List (String × ApiKey)) (x_api_key : Option String)
    (db : List FileRow) (file_id_raw status_raw : String)
    (error_opt : Option String) (now : Int) :
    Except AppError (List FileRow × ExtractStatusResponse) := do
  let auth ← auth_from_headers keyIdOf require_api_key api_keys x_api_key none
  let _ ← assert_can_write auth
  set_extract_status_core db auth.tenant_id file_id_raw status_raw error_opt
    now

/-- A concrete live file record used as test data by the witnesses below:
tenant "t", file id "f", not tombstoned. -/
def sampleRow : FileRow :=
  { file_id := "f", tenant_id := "t", session_id := none,
    filename := "n", mime := none, size := 1, sha256 := "f",
    created_at_ms := 0, source := none, encrypted := false,
    storage_path := "objects/t/f", deleted_at_ms := none,
    extract_status := some "pending", extract_updated_at_ms := some 0,
    extract_attempt := some 0, extract_error := none,
    annotations_json := none }

/-- A sequence of `set_extract_status` store operations against one
`(tenant, file_id)` target, threading the database; used to state the
"after N successful calls" property.  Each triple is (status, error, now). -/
def applyStatusCalls (tenant fid : String) :
    List (String × Option String × Int) → List FileRow →
      Except AppError (List FileRow)
  | [], db => .ok db
  | (status, err, now) :: rest, db =>
    match set_extract_status_core db tenant fid status err now with
    | .error e => .error e
    | .ok (db2, _) => applyStatusCalls tenant fid rest db2

/-- `tombstone` handler (main.rs lines 1365-1414). -/
def tombstone (keyIdOf : String → String) (require_api_key : Bool)
    (api_keys : List (String × ApiKey)) (x_api_key : Option String)
    (db : List FileRow) (file_id_raw : String) (ts : Int) :
    Except AppError (List FileRow × TombstoneResponse) := do
  let auth ← auth_from_headers keyIdOf require_api_key api_keys x_api_key none
  let _ ← assert_can_write auth
  tombstone_core db auth.tenant_id file_id_raw ts

structure LinkResponse where
  ok : Bool
  token : List Nat
  path : List Nat
  url : Option (List Nat)
  expires_at_ms : Int
deriving DecidableEq, Repr

/-- `base.trim_end_matches('/')`. -/
def trimEndSlash (s : String) : String :=
  String.mk ((s.data.reverse.dropWhile (fun c => c == '/')).reverse)

/-- `create_link` handler body after auth (main.rs lines 1178-1242):
signing key must be configured, path parameter checks, existence check
(COUNT over live matching rows), TTL clamped to [30, 3600] seconds with
default 300, then mint the token. -/
def create_link_core (hmacFn : List Nat → List Nat → List Nat)
    (signing_key : Option (List Nat)) (public_base_url : Option String)
    (db : List FileRow) (tenant : String) (file_id_raw : String)
    (ttl_seconds : Option Nat) (now : Int) : Except AppError LinkResponse :=
  match signing_key with
  | none => .error (.InvalidRequest "RUSTFS_SIGNING_KEY is not configured")
  | some sk =>
    let file_id := trimStr file_id_raw
    if file_id = "" then .error (.InvalidRequest "file_id required")
    else if ¬ db.any (liveMatch tenant file_id) then .error .NotFound
    else
      let ttl : Nat := ((ttl_seconds.getD 300).max 30).min 3600
      let expires_at_ms : Int := now + (ttl : Int) * 1000
      let payload : DownloadTokenPayload :=
        { tenant_id := strBytes tenant, file_id := strBytes file_id,
          exp_ms := expires_at_ms }
      let token := sign_token hmacFn sk payload
      let path := strBytes "/v1/public/download?token=" ++ token
      .ok { ok := true, token := token, path := path,
            url := public_base_url.map
              (fun base => strBytes (trimEndSlash base) ++ path),
            expires_at_ms := expires_at_ms }

/-- `create_link` handler (main.rs lines 1169-1242). -/
def create_link (hmacFn : List Nat → List Nat → List Nat)
    (keyIdOf : String → String) (require_api_key : Bool)
    (api_keys : List (String × ApiKey)) (x_api_key : Option String)
    (signing_key : Option (List Nat)) (public_base_url : Option String)
    (db : List FileRow) (file_id_raw : String) (ttl_seconds : Option Nat)
    (now : Int) : Except AppError LinkResponse := do
  let auth ← auth_from_headers keyIdOf require_api_key api_keys x_api_key none
  let _ ← assert_can_write auth
  create_link_core hmacFn signing_key public_base_url db auth.tenant_id
    file_id_raw ttl_seconds now

/-- `public_download` handler (main.rs lines 1244-1363): signing key must be
configured, token verified (after `trim`), then the shared download core on
the token's own tenant and file id — no API-key auth. -/
def public_download (hmacFn : List Nat → List Nat → List Nat)
    (signing_key : Option (List Nat)) (master_key : Option String)
    (db : List FileRow) (objects : List (String × List Nat))
    (token : List Nat) (now : Int) : Except AppError DownloadOk :=
  match signing_key with
  | none => .error (.InvalidRequest "RUSTFS_SIGNING_KEY is not configured")
  | some sk => do
    let payload ← verify_token hmacFn sk (trimAsciiWsBytes token) now
    download_core master_key db objects (bytesToStr payload.tenant_id)
      (bytesToStr payload.file_id)

/-- A byte serde_json serializes into a string literal without escaping:
printable ASCII other than the quote and the backslash. -/
def jsonSafeByte (b : Nat) : Prop := 32 ≤ b ∧ b < 128 ∧ b ≠ 34 ∧ b ≠ 92

instance (b : Nat) : Decidable (jsonSafeByte b) := by
  unfold jsonSafeByte
  infer_instance

/-! ## Lemmas about the Base64 codec -/

lemma b64Alphabet_facts : ∀ b ∈ b64Alphabet, 45 ≤ b ∧ b < 256 ∧ b ≠ 46 := by
  decide

lemma b64Alphabet_length : b64Alphabet.length = 64 := by decide

lemma sixToChar_mem (v : Nat) : sixToChar v ∈ b64Alphabet := by
  unfold sixToChar
  rcases lt_or_ge v b64Alphabet.length with h | h
  · rw [List.getD_eq_getElem _ _ h]
    exact List.getElem_mem h
  · rw [List.getD_eq_default _ _ h]
    decide

lemma charIndexIn_spec (d : Nat) :
    ∀ (l : List Nat) (c i : Nat), charIndexIn l c = some i →
      i < l.length ∧ l.getD i d = c := by
  intro l
  induction l with
  | nil => intro c i h; simp [charIndexIn] at h
  | cons a rest ih =>
    intro c i h
    simp only [charIndexIn] at h
    split at h
    · rename_i heq
      cases h
      simpa using heq
    · rcases Option.map_eq_some'.mp h with ⟨j, hj, hji⟩
      rcases ih c j hj with ⟨hlt, hgd⟩
      subst hji
      refine ⟨by simpa using Nat.succ_lt_succ hlt, ?_⟩
      simpa [List.getD_cons_succ] using hgd

lemma charToSix_spec {c x : Nat} (h : charToSix c = some x) :
    x < 64 ∧ sixToChar x = c := by
  rcases charIndexIn_spec 65 b64Alphabet c x h with ⟨hlt, hgd⟩
  exact ⟨by simpa using hlt, hgd⟩

lemma charToSix_sixToChar {v : Nat} (hv : v < 64) :
    charToSix (sixToChar v) = some v := by
  have h : ∀ w : Fin 64, charToSix (sixToChar w.val) = some w.val := by decide
  exact h ⟨v, hv⟩

lemma b64encode_mem : ∀ (m : List Nat), ∀ x ∈ b64encode m, x ∈ b64Alphabet := by
  intro m
  induction m using b64encode.induct with
  | case1 => simp [b64encode]
  | case2 a =>
    simp only [b64encode, List.mem_cons, List.not_mem_nil, or_false]
    rintro x (rfl | rfl) <;> exact sixToChar_mem _
  | case3 a b =>
    simp only [b64encode, List.mem_cons, List.not_mem_nil, or_false]
    rintro x (rfl | rfl | rfl) <;> exact sixToChar_mem _
  | case4 a b c rest ih =>
    simp only [b64encode, List.mem_cons]
    rintro x (rfl | rfl | rfl | rfl | hx)
    · exact sixToChar_mem _
    · exact sixToChar_mem _
    · exact sixToChar_mem _
    · exact sixToChar_mem _
    · exact ih x hx

lemma b64encode_no_dot {m : List Nat} : 46 ∉ b64encode m := by
  intro h
  exact (b64Alphabet_facts 46 (b64encode_mem m 46 h)).2.2 rfl

lemma b64encode_lt_256 {m : List Nat} : ∀ x ∈ b64encode m, x < 256 :=
  fun x hx => (b64Alphabet_facts x (b64encode_mem m x hx)).2.1

lemma b64decode_encode :
    ∀ (m : List Nat), (∀ b ∈ m, b < 256) → b64decode (b64encode m) = some m := by
  intro m
  induction m using b64encode.induct with
  | case1 => intro _; rfl
  | case2 a =>
    intro hb
    have ha : a < 256 := hb a (by simp)
    simp only [b64encode, b64decode,
      charToSix_sixToChar (show a / 4 % 64 < 64 by omega),
      charToSix_sixToChar (show a % 4 * 16 < 64 by omega)]
    simp only [Option.bind_eq_bind, Option.some_bind]
    have hz : a % 4 * 16 % 16 = 0 := by omega
    rw [if_neg (by omega)]
    congr 1
    congr 1
    omega
  | case3 a b =>
    intro hb
    have ha : a < 256 := hb a (by simp)
    have hbb : b < 256 := hb b (by simp)
    simp only [b64encode, b64decode,
      charToSix_sixToChar (show a / 4 % 64 < 64 by omega),
      charToSix_sixToChar (show a % 4 * 16 + b / 16 % 16 < 64 by omega),
      charToSix_sixToChar (show b % 16 * 4 < 64 by omega)]
    simp only [Option.bind_eq_bind, Option.some_bind]
    rw [if_neg (by omega)]
    congr 1
    congr 1
    · omega
    · congr 1
      omega
  | case4 a b c rest ih =>
    intro hb
    have ha : a < 256 := hb a (by simp)
    have hbb : b < 256 := hb b (by simp)
    have hc : c < 256 := hb c (by simp)
    have hrest : ∀ x ∈ rest, x < 256 := fun x hx => hb x (by simp [hx])
    simp only [b64encode, b64decode,
      charToSix_sixToChar (show a / 4 % 64 < 64 by omega),
      charToSix_sixToChar (show a % 4 * 16 + b / 16 % 16 < 64 by omega),
      charToSix_sixToChar (show b % 16 * 4 + c / 64 % 4 < 64 by omega),
      charToSix_sixToChar (show c % 64 < 64 by omega)]
    simp only [Option.bind_eq_bind, Option.some_bind, ih hrest]
    congr 1
    congr 1
    · omega
    · congr 1
      · omega
      · congr 1
        omega

lemma b64encode_decode :
    ∀ (s m : List Nat), b64decode s = some m → b64encode m = s := by
  intro s
  induction s using b64decode.induct with
  | case1 =>
    intro m h
    cases h
    rfl
  | case2 p =>
    intro m h
    simp [b64decode] at h
  | case3 p q =>
    intro m h
    simp only [b64decode, Option.bind_eq_bind] at h
    cases hp : charToSix p with
    | none => rw [hp] at h; simp at h
    | some x =>
      cases hq : charToSix q with
      | none => rw [hp, hq] at h; simp at h
      | some y =>
        rw [hp, hq] at h
        simp only [Option.some_bind] at h
        rcases charToSix_spec hp with ⟨hx, hxc⟩
        rcases charToSix_spec hq with ⟨hy, hyc⟩
        split at h
        · simp at h
        · rename_i hz
          cases h
          have hz' : y % 16 = 0 := by omega
          simp only [b64encode]
          rw [show (x * 4 + y / 16) / 4 % 64 = x by omega,
              show (x * 4 + y / 16) % 4 * 16 = y by omega, hxc, hyc]
  | case4 p q r =>
    intro m h
    simp only [b64decode, Option.bind_eq_bind] at h
    cases hp : charToSix p with
    | none => rw [hp] at h; simp at h
    | some x =>
      cases hq : charToSix q with
      | none => rw [hp, hq] at h; simp at h
      | some y =>
        cases hr : charToSix r with
        | none => rw [hp, hq, hr] at h; simp at h
        | some z =>
          rw [hp, hq, hr] at h
          simp only [Option.some_bind] at h
          rcases charToSix_spec hp with ⟨hx, hxc⟩
          rcases charToSix_spec hq with ⟨hy, hyc⟩
          rcases charToSix_spec hr with ⟨hz, hzc⟩
          split at h
          · simp at h
          · rename_i hz4
            cases h
            have hz4' : z % 4 = 0 := by omega
            simp only [b64encode]
            rw [show (x * 4 + y / 16) / 4 % 64 = x by omega,
                show (x * 4 + y / 16) % 4 * 16 + (y % 16 * 16 + z / 4) / 16 % 16
                  = y by omega,
                show (y % 16 * 16 + z / 4) % 16 * 4 = z by omega,
                hxc, hyc, hzc]
  | case5 p q r s4 rest ih =>
    intro m h
    simp only [b64decode, Option.bind_eq_bind] at h
    cases hp : charToSix p with
    | none => rw [hp] at h; simp at h
    | some x =>
      cases hq : charToSix q with
      | none => rw [hp, hq] at h; simp at h
      | some y =>
        cases hr : charToSix r with
        | none => rw [hp, hq, hr] at h; simp at h
        | some z =>
          cases hs : charToSix s4 with
          | none => rw [hp, hq, hr, hs] at h; simp at h
          | some w =>
            rw [hp, hq, hr, hs] at h
            simp only [Option.some_bind] at h
            cases htail : b64decode rest with
            | none => rw [htail] at h; simp at h
            | some tail =>
              rw [htail] at h
              simp only [Option.some_bind] at h
              cases h
              rcases charToSix_spec hp with ⟨hx, hxc⟩
              rcases charToSix_spec hq with ⟨hy, hyc⟩
              rcases charToSix_spec hr with ⟨hz, hzc⟩
              rcases charToSix_spec hs with ⟨hw, hwc⟩
              simp only [b64encode]
              rw [show (x * 4 + y / 16) / 4 % 64 = x by omega,
                  show (x * 4 + y / 16) % 4 * 16 + (y % 16 * 16 + z / 4) / 16 % 16
                    = y by omega,
                  show (y % 16 * 16 + z / 4) % 16 * 4 + (z % 4 * 64 + w) / 64 % 4
                    = z by omega,
                  show (z % 4 * 64 + w) % 64 = w by omega,
                  hxc, hyc, hzc, hwc, ih tail htail]

lemma b64decode_inj {s1 s2 m : List Nat} (h1 : b64decode s1 = some m)
    (h2 : b64decode s2 = some m) : s1 = s2 := by
  rw [← b64encode_decode s1 m h1, ← b64encode_decode s2 m h2]

/-! ## Lemmas about splitting on the dot -/

lemma splitOnDot_ne_nil : ∀ l : List Nat, splitOnDot l ≠ [] := by
  intro l
  induction l with
  | nil => simp [splitOnDot]
  | cons c rest ih =>
    simp only [splitOnDot]
    split
    · simp
    · cases h : splitOnDot rest with
      | nil => exact absurd h ih
      | cons a t => simp

lemma splitOnDot_no_dot : ∀ l : List Nat, 46 ∉ l → splitOnDot l = [l] := by
  intro l
  induction l with
  | nil => intro _; rfl
  | cons c rest ih =>
    intro h
    have hc : c ≠ 46 := fun hh => h (by simp [hh])
    have hrest : 46 ∉ rest := fun hh => h (by simp [hh])
    simp only [splitOnDot, if_neg hc, ih hrest]

lemma splitOnDot_append_dot {A B : List Nat} (hA : 46 ∉ A) :
    splitOnDot (A ++ 46 :: B) = A :: splitOnDot B := by
  induction A with
  | nil => simp [splitOnDot]
  | cons a A' ih =>
    have ha : a ≠ 46 := fun hh => hA (by simp [hh])
    have hA' : 46 ∉ A' := fun hh => hA (by simp [hh])
    simp only [List.cons_append, splitOnDot, if_neg ha, List.append_eq, ih hA']

lemma splitOnDot_length_cons_ge (c : Nat) (l : List Nat) :
    (splitOnDot l).length ≤ (splitOnDot (c :: l)).length := by
  simp only [splitOnDot]
  split
  · simp
  · cases h : splitOnDot l with
    | nil => exact absurd h (splitOnDot_ne_nil l)
    | cons a t => simp [h]

lemma splitOnDot_length_append_dot (x y : List Nat) :
    (splitOnDot y).length + 1 ≤ (splitOnDot (x ++ 46 :: y)).length := by
  induction x with
  | nil => simp [splitOnDot]
  | cons a x' ih =>
    exact le_trans ih (splitOnDot_length_cons_ge a (x' ++ 46 :: y))

lemma splitOnDot_length_pos (l : List Nat) : 1 ≤ (splitOnDot l).length := by
  cases h : splitOnDot l with
  | nil => exact absurd h (splitOnDot_ne_nil l)
  | cons a t => simp

lemma exists_first_dot : ∀ {l : List Nat}, 46 ∈ l →
    ∃ p q, l = p ++ 46 :: q ∧ 46 ∉ p := by
  intro l
  induction l with
  | nil => intro h; simp at h
  | cons a rest ih =>
    intro h
    by_cases ha : a = 46
    · exact ⟨[], rest, by simp [ha], by simp⟩
    · have h' : 46 ∈ rest := by
        rcases List.mem_cons.mp h with h46 | h46
        · exact absurd h46.symm ha
        · exact h46
      rcases ih h' with ⟨p, q, heq, hp⟩
      refine ⟨a :: p, q, by simp [heq], ?_⟩
      intro hmem
      rcases List.mem_cons.mp hmem with h46 | h46
      · exact ha h46.symm
      · exact hp h46

/-! ## Lemmas about the JSON payload codec -/

lemma dropLit_append : ∀ (p r : List Nat), dropLit p (p ++ r) = some r := by
  intro p
  induction p with
  | nil => intro r; rfl
  | cons a rest ih => intro r; simp [dropLit, ih]

lemma takeUntilQuote_append :
    ∀ (s r : List Nat), 34 ∉ s → takeUntilQuote (s ++ 34 :: r) = some (s, r) := by
  intro s
  induction s with
  | nil => intro r _; simp [takeUntilQuote]
  | cons c s' ih =>
    intro r h
    have hc : c ≠ 34 := fun hh => h (by simp [hh])
    have hs' : 34 ∉ s' := fun hh => h (by simp [hh])
    simp [takeUntilQuote, if_neg hc, ih r hs']

lemma parseDigits_mapped :
    ∀ (ds : List Nat) (a : Nat), (∀ d ∈ ds, d < 10) →
      parseDigits (ds.map (· + 48) ++ [125]) a =
        (List.foldl (fun acc d => acc * 10 + d) a ds, [125]) := by
  intro ds
  induction ds with
  | nil =>
    intro a _
    simp [parseDigits]
  | cons d ds' ih =>
    intro a hd
    have hdd : d < 10 := hd d (by simp)
    have hds' : ∀ x ∈ ds', x < 10 := fun x hx => hd x (by simp [hx])
    simp only [List.map_cons, List.cons_append, parseDigits,
      if_pos (by omega : 48 ≤ d + 48 ∧ d + 48 ≤ 57), List.append_eq]
    rw [show d + 48 - 48 = d by omega, ih (a * 10 + d) hds']
    simp

lemma foldl_reverse_ofDigits :
    ∀ (ds : List Nat) (a : Nat),
      List.foldl (fun acc d => acc * 10 + d) a ds.reverse =
        a * 10 ^ ds.length + Nat.ofDigits 10 ds := by
  intro ds
  induction ds with
  | nil => intro a; simp [Nat.ofDigits_nil]
  | cons d t ih =>
    intro a
    simp only [List.reverse_cons, List.foldl_append, ih a, List.foldl_cons,
      List.foldl_nil, Nat.ofDigits_cons, List.length_cons, pow_succ]
    ring

lemma natDecAux_eq_digits :
    ∀ (fuel n : Nat), n ≤ fuel →
      natDecAux fuel n = (Nat.digits 10 n).reverse.map (· + 48) := by
  intro fuel
  induction fuel with
  | zero =>
    intro n hn
    have h0 : n = 0 := by omega
    subst h0
    simp [natDecAux]
  | succ fuel ih =>
    intro n hn
    by_cases h0 : n = 0
    · subst h0
      simp [natDecAux]
    · simp only [natDecAux, if_neg h0]
      have hdiv : n / 10 ≤ fuel := by
        have := Nat.div_lt_self (Nat.pos_of_ne_zero h0) (by norm_num : 1 < 10)
        omega
      rw [ih _ hdiv,
        Nat.digits_def' (by norm_num : 1 < 10) (Nat.pos_of_ne_zero h0)]
      simp

lemma natDec_eq_digits {n : Nat} (h0 : n ≠ 0) :
    natDec n = (Nat.digits 10 n).reverse.map (· + 48) := by
  simp [natDec, h0, natDecAux_eq_digits n n le_rfl]

lemma natDec_bounds : ∀ (n : Nat), ∀ x ∈ natDec n, 48 ≤ x ∧ x ≤ 57 := by
  intro n x hx
  by_cases h0 : n = 0
  · subst h0
    simp [natDec] at hx
    omega
  · rw [natDec_eq_digits h0] at hx
    rcases List.mem_map.mp hx with ⟨d, hd, rfl⟩
    have := Nat.digits_lt_base (by norm_num) (List.mem_reverse.mp hd)
    omega

lemma natDec_ne_nil (n : Nat) : natDec n ≠ [] := by
  by_cases h0 : n = 0
  · subst h0
    simp [natDec]
  · rw [natDec_eq_digits h0]
    simp [Nat.digits_ne_nil_iff_ne_zero.mpr h0]

lemma parseNat1_natDec (n : Nat) : parseNat1 (natDec n ++ [125]) = some (n, [125]) := by
  by_cases h0 : n = 0
  · subst h0
    simp [natDec, parseNat1, parseDigits]
  · have hdig : ∀ d ∈ (Nat.digits 10 n).reverse, d < 10 :=
      fun d hd => Nat.digits_lt_base (by norm_num) (List.mem_reverse.mp hd)
    have hne : (Nat.digits 10 n).reverse ≠ [] := by
      simp [Nat.digits_ne_nil_iff_ne_zero.mpr h0]
    rw [natDec_eq_digits h0]
    cases hrev : (Nat.digits 10 n).reverse with
    | nil => exact absurd hrev hne
    | cons d tl =>
      have hd10 : d < 10 := hdig d (by rw [hrev]; simp)
      have htl10 : ∀ x ∈ tl, x < 10 := fun x hx => hdig x (by rw [hrev]; simp [hx])
      simp only [List.map_cons, List.cons_append, parseNat1,
        if_pos (by omega : 48 ≤ d + 48 ∧ d + 48 ≤ 57)]
      rw [show d + 48 - 48 = d by omega, parseDigits_mapped tl d htl10]
      have hfold : List.foldl (fun acc x => acc * 10 + x) d tl = n := by
        have h1 : List.foldl (fun acc x => acc * 10 + x) 0
            (Nat.digits 10 n).reverse = n := by
          rw [foldl_reverse_ofDigits]
          simp [Nat.ofDigits_digits]
        rw [hrev, List.foldl_cons] at h1
        simpa using h1
      rw [hfold]

lemma parseInt_intDec (i : Int) : parseInt (intDec i ++ [125]) = some (i, [125]) := by
  unfold intDec
  split
  · rename_i hneg
    rw [List.cons_append,
      show parseInt (45 :: (natDec i.natAbs ++ [125])) =
        (parseNat1 (natDec i.natAbs ++ [125])).map
          (fun pr => (-(pr.1 : Int), pr.2)) from rfl,
      parseNat1_natDec]
    simp only [Option.map_some']
    rw [show -((i.natAbs : Nat) : Int) = i by omega]
  · rename_i hpos
    cases hnd : natDec i.toNat with
    | nil => exact absurd hnd (natDec_ne_nil _)
    | cons c rest =>
      have hc : 48 ≤ c ∧ c ≤ 57 := natDec_bounds _ c (by rw [hnd]; simp)
      rw [List.cons_append,
        show parseInt (c :: (rest ++ [125])) =
          if c = 45 then
            (parseNat1 (rest ++ [125])).map (fun pr => (-(pr.1 : Int), pr.2))
          else
            (parseNat1 (c :: (rest ++ [125]))).map
              (fun pr => ((pr.1 : Int), pr.2)) from rfl,
        if_neg (show ¬ c = 45 by omega),
        show c :: (rest ++ [125]) = natDec i.toNat ++ [125] by rw [hnd]; simp,
        parseNat1_natDec]
      simp only [Option.map_some']
      rw [show ((i.toNat : Nat) : Int) = i by omega]

lemma jsonParse_jsonSer (p : DownloadTokenPayload) (h1 : 34 ∉ p.tenant_id)
    (h2 : 34 ∉ p.file_id) : jsonParse (jsonSer p) = some p := by
  have e2 : strBytes "\",\"file_id\":\"" = 34 :: strBytes ",\"file_id\":\"" := by
    decide
  have e3 : strBytes "\",\"exp_ms\":" = 34 :: strBytes ",\"exp_ms\":" := by
    decide
  have eshape : jsonSer p =
      strBytes "\x7b\"tenant_id\":\"" ++
        (p.tenant_id ++ 34 :: (strBytes ",\"file_id\":\"" ++
          (p.file_id ++ 34 :: (strBytes ",\"exp_ms\":" ++
            (intDec p.exp_ms ++ [125]))))) := by
    simp only [jsonSer, e2, e3, List.append_assoc, List.cons_append,
      List.nil_append]
  have tq1 : ∀ r, takeUntilQuote (p.tenant_id ++ 34 :: r) =
      some (p.tenant_id, r) := fun r => takeUntilQuote_append _ r h1
  have tq2 : ∀ r, takeUntilQuote (p.file_id ++ 34 :: r) =
      some (p.file_id, r) := fun r => takeUntilQuote_append _ r h2
  unfold jsonParse
  rw [eshape]
  simp only [dropLit_append, tq1, tq2, parseInt_intDec]

/-! ## Token round-trip and tamper lemmas -/

lemma intDec_bounds : ∀ (i : Int), ∀ b ∈ intDec i, 45 ≤ b ∧ b ≤ 57 := by
  intro i b hb
  unfold intDec at hb
  split at hb
  · rcases List.mem_cons.mp hb with rfl | hb'
    · omega
    · have := natDec_bounds _ b hb'
      omega
  · have := natDec_bounds _ b hb
    omega

lemma jsonSer_lt_256 (p : DownloadTokenPayload)
    (h1 : ∀ b ∈ p.tenant_id, b < 256) (h2 : ∀ b ∈ p.file_id, b < 256) :
    ∀ b ∈ jsonSer p, b < 256 := by
  intro b hb
  unfold jsonSer at hb
  simp only [List.append_assoc, List.mem_append, List.mem_cons,
    List.not_mem_nil, or_false] at hb
  rcases hb with hb | hb | hb | hb | hb | hb
  · exact (by decide : ∀ x ∈ strBytes "\x7b\"tenant_id\":\"", x < 256) b hb
  · exact h1 b hb
  · exact (by decide : ∀ x ∈ strBytes "\",\"file_id\":\"", x < 256) b hb
  · exact h2 b hb
  · exact (by decide : ∀ x ∈ strBytes "\",\"exp_ms\":", x < 256) b hb
  · rcases hb with hb | rfl
    · have := intDec_bounds _ b hb
      omega
    · omega

lemma xor_pow_ne (x bit : Nat) : x ^^^ 2 ^ bit ≠ x := by
  intro h
  have h2 : (x ^^^ 2 ^ bit) ^^^ x = x ^^^ x := congrArg (· ^^^ x) h
  rw [Nat.xor_comm x (2 ^ bit), Nat.xor_assoc, Nat.xor_self, Nat.xor_zero] at h2
  exact (pow_pos (by norm_num : (0 : ℕ) < 2) bit).ne' h2

lemma set_xor_ne {l : List Nat} {i bit : Nat} (hi : i < l.length) :
    l.set i (l.getD i 0 ^^^ 2 ^ bit) ≠ l := by
  intro hEq
  have h1 := congrArg (fun x => x.getD i 0) hEq
  simp only at h1
  rw [List.getD_eq_getElem _ _ (by simpa using hi), List.getElem_set_self,
    List.getD_eq_getElem _ _ hi] at h1
  exact xor_pow_ne l[i] bit h1

lemma mem_set_self : ∀ (l : List Nat) (i : Nat) (v : Nat),
    i < l.length → v ∈ l.set i v := by
  intro l
  induction l with
  | nil => intro i v h; simp at h
  | cons a t ih =>
    intro i v h
    cases i with
    | zero => simp [List.set]
    | succ n =>
      simp only [List.set, List.mem_cons]
      exact Or.inr (ih n v (by simpa using h))

lemma verify_token_not_two (hmacFn : List Nat → List Nat → List Nat)
    (k tok : List Nat) (now : Int) (h : (splitOnDot tok).length ≠ 2) :
    verify_token hmacFn k tok now = .error (.InvalidRequest "invalid token") := by
  unfold verify_token
  rcases hs : splitOnDot tok with _ | ⟨a, _ | ⟨b, _ | ⟨c, t⟩⟩⟩
  · rfl
  · rfl
  · exact absurd (by rw [hs]; rfl) h
  · rfl

/-- The untampered round trip: `verify_token` over `sign_token` recomputes
the same HMAC, decodes the payload, and then gates only on the expiry. -/
lemma verify_sign (hmacFn : List Nat → List Nat → List Nat)
    (k : List Nat) (p : DownloadTokenPayload) (now : Int)
    (h1 : 34 ∉ p.tenant_id) (h2 : 34 ∉ p.file_id)
    (h256t : ∀ b ∈ p.tenant_id, b < 256) (h256f : ∀ b ∈ p.file_id, b < 256)
    (hmb : ∀ b ∈ hmacFn k (b64encode (jsonSer p)), b < 256) :
    verify_token hmacFn k (sign_token hmacFn k p) now =
      if p.exp_ms ≤ now then .error .Unauthorized else .ok p := by
  have hsplit : splitOnDot (b64encode (jsonSer p) ++ 46 ::
      b64encode (hmacFn k (b64encode (jsonSer p)))) =
      [b64encode (jsonSer p), b64encode (hmacFn k (b64encode (jsonSer p)))] := by
    rw [splitOnDot_append_dot b64encode_no_dot,
      splitOnDot_no_dot _ b64encode_no_dot]
  unfold verify_token sign_token
  rw [hsplit]
  simp only [b64decode_encode _ hmb,
    b64decode_encode (jsonSer p) (jsonSer_lt_256 p h256t h256f),
    jsonParse_jsonSer p h1 h2, eq_self_iff_true, if_true]

/-- Any single-bit change to a signed token is rejected — with InvalidRequest
when the flip breaks the token structure or the signature's Base64, and
Unauthorized when it reaches the constant-time signature comparison.
`hinj` asserts HMAC-SHA256 is collision-free under this key on the inputs
involved (its cryptographic contract); `hmb` that its digests are bytes. -/
lemma verify_flip (hmacFn : List Nat → List Nat → List Nat)
    (k : List Nat) (p : DownloadTokenPayload) (now : Int) (i bit : Nat)
    (hi : i < (sign_token hmacFn k p).length) (hbit : bit < 8)
    (hmb : ∀ b ∈ hmacFn k (b64encode (jsonSer p)), b < 256)
    (hinj : ∀ m1 m2, hmacFn k m1 = hmacFn k m2 → m1 = m2) :
    (sign_token hmacFn k p).set i
        ((sign_token hmacFn k p).getD i 0 ^^^ 2 ^ bit) ≠
      sign_token hmacFn k p ∧
    (verify_token hmacFn k ((sign_token hmacFn k p).set i
        ((sign_token hmacFn k p).getD i 0 ^^^ 2 ^ bit)) now =
        .error .Unauthorized ∨
     verify_token hmacFn k ((sign_token hmacFn k p).set i
        ((sign_token hmacFn k p).getD i 0 ^^^ 2 ^ bit)) now =
        .error (.InvalidRequest "invalid token")) := by
  refine ⟨set_xor_ne hi, ?_⟩
  have htok : sign_token hmacFn k p = b64encode (jsonSer p) ++ 46 ::
      b64encode (hmacFn k (b64encode (jsonSer p))) := rfl
  set A := b64encode (jsonSer p) with hAdef
  set B := b64encode (hmacFn k A) with hBdef
  rw [htok] at hi ⊢
  rcases lt_trichotomy i A.length with hiA | hiA | hiA
  · -- flip inside the encoded payload
    have hgd : (A ++ 46 :: B).getD i 0 = A.getD i 0 := by
      rw [List.getD_append _ _ _ _ hiA, List.getD_eq_getElem _ _ hiA]
    rw [hgd, List.set_append, if_pos hiA]
    set v := A.getD i 0 ^^^ 2 ^ bit with hv
    by_cases hv46 : v = 46
    · -- the flipped byte became a dot: three or more parts
      right
      apply verify_token_not_two
      have hmem46 : 46 ∈ A.set i v := hv46 ▸ mem_set_self A i v hiA
      rcases exists_first_dot hmem46 with ⟨pre, post, hsp, hpre⟩
      rw [hsp, List.append_assoc, List.cons_append]
      have hh1 := splitOnDot_length_append_dot pre (post ++ 46 :: B)
      have hh2 := splitOnDot_length_append_dot post B
      have hh3 := splitOnDot_length_pos B
      omega
    · -- still dot-free but a different payload: HMAC comparison fails
      left
      have hA'nd : 46 ∉ A.set i v := by
        intro hmem
        rcases List.mem_or_eq_of_mem_set hmem with hin | heq46
        · exact b64encode_no_dot hin
        · exact hv46 heq46.symm
      have hsplit2 : splitOnDot (A.set i v ++ 46 :: B) =
          [A.set i v, B] := by
        rw [splitOnDot_append_dot hA'nd, splitOnDot_no_dot _ b64encode_no_dot]
      have hdecB : b64decode B = some (hmacFn k A) := b64decode_encode _ hmb
      have hne : hmacFn k (A.set i v) ≠ hmacFn k A := by
        intro hEq
        exact set_xor_ne hiA (hinj _ _ hEq)
      unfold verify_token
      simp only [hsplit2, hdecB, if_neg hne]
  · -- flip of the separator itself: no dot remains
    right
    have hgd : (A ++ 46 :: B).getD i 0 = 46 := by
      rw [List.getD_append_right _ _ _ _ (le_of_eq hiA.symm), hiA]
      simp
    rw [hgd, List.set_append, if_neg (by omega), hiA.symm]
    rw [show i - i = 0 by omega]
    apply verify_token_not_two
    have hnd : 46 ∉ A ++ (46 :: B).set 0 (46 ^^^ 2 ^ bit) := by
      intro hmem
      rcases List.mem_append.mp hmem with hin | hin
      · exact b64encode_no_dot hin
      · rcases List.mem_cons.mp (by simpa [List.set] using hin) with h46 | hin'
        · exact xor_pow_ne 46 bit h46.symm
        · exact b64encode_no_dot hin'
    rw [splitOnDot_no_dot _ hnd]
    simp
  · -- flip inside the encoded signature
    have hj : i - A.length - 1 < B.length := by
      have h := hi
      simp only [List.length_append, List.length_cons] at h
      omega
    have hisub : i - A.length = (i - A.length - 1) + 1 := by omega
    set j := i - A.length - 1 with hjdef
    have hgd : (A ++ 46 :: B).getD i 0 = B.getD j 0 := by
      rw [List.getD_append_right _ _ _ _ (by omega), hisub]
      simp
    rw [hgd, List.set_append, if_neg (by omega), hisub]
    set v := B.getD j 0 ^^^ 2 ^ bit with hv
    rw [show (46 :: B).set (j + 1) v = 46 :: B.set j v by simp [List.set]]
    by_cases hv46 : v = 46
    · -- flipped signature byte became a dot
      right
      apply verify_token_not_two
      have hmem46 : 46 ∈ B.set j v := hv46 ▸ mem_set_self B j v hj
      rcases exists_first_dot hmem46 with ⟨pre, post, hsp, hpre⟩
      rw [hsp]
      rw [splitOnDot_append_dot b64encode_no_dot]
      have hh2 := splitOnDot_length_append_dot pre post
      have hh3 := splitOnDot_length_pos post
      simp only [List.length_cons]
      omega
    · -- dot-free damaged signature: Base64 reject or HMAC mismatch
      have hB'nd : 46 ∉ B.set j v := by
        intro hmem
        rcases List.mem_or_eq_of_mem_set hmem with hin | heq46
        · exact b64encode_no_dot hin
        · exact hv46 heq46.symm
      have hsplit2 : splitOnDot (A ++ 46 :: B.set j v) = [A, B.set j v] := by
        rw [splitOnDot_append_dot b64encode_no_dot,
          splitOnDot_no_dot _ hB'nd]
      cases hdec : b64decode (B.set j v) with
      | none =>
        right
        unfold verify_token
        simp only [hsplit2, hdec]
      | some sig' =>
        left
        have hne : hmacFn k A ≠ sig' := by
          intro hEq
          have hBv : b64encode sig' = B.set j v := b64encode_decode _ _ hdec
          have hBB : b64encode (hmacFn k A) = B := rfl
          rw [← hEq] at hBv
          rw [hBB] at hBv
          exact set_xor_ne hj hBv.symm
        unfold verify_token
        simp only [hsplit2, hdec, if_neg hne]

/-! ## Handler-level helper lemmas -/

lemma except_bind_ok {ε α β : Type} (a : α) (f : α → Except ε β) :
    (Except.ok a >>= f : Except ε β) = f a := rfl

lemma auth_disabled_none (keyIdOf : String → String)
    (api_keys : List (String × ApiKey)) (hk : Option String) :
    auth_from_headers keyIdOf false api_keys hk none =
      .ok { tenant_id := "default", role := "admin", key_id := "dev" } := rfl

lemma auth_disabled_hint (keyIdOf : String → String)
    (api_keys : List (String × ApiKey)) (hk : Option String) (t : String)
    (h : trimStr t ≠ "") :
    auth_from_headers keyIdOf false api_keys hk (some t) =
      .ok { tenant_id := trimStr t, role := "admin", key_id := "dev" } := by
  simp [auth_from_headers, h]

lemma liveMatch_eq_true {t fid : String} {r : FileRow} :
    liveMatch t fid r = true ↔
      r.tenant_id = t ∧ r.file_id = fid ∧ r.deleted_at_ms = none := by
  simp [liveMatch, and_assoc]

lemma lookup_live_none_of_fid {db : List FileRow} {fid : String} (t : String)
    (h : ∀ r ∈ db, r.file_id ≠ fid) : lookup_live db t fid = none := by
  unfold lookup_live
  rw [List.find?_eq_none]
  intro x hx hmatch
  exact h x hx (liveMatch_eq_true.mp hmatch).2.1

lemma lookup_live_none_of_tenant {db : List FileRow} {t : String} (fid : String)
    (h : ∀ r ∈ db, r.tenant_id ≠ t) : lookup_live db t fid = none := by
  unfold lookup_live
  rw [List.find?_eq_none]
  intro x hx hmatch
  exact h x hx (liveMatch_eq_true.mp hmatch).1

lemma lookup_live_none {db : List FileRow} {t fid : String}
    (h : ∀ x ∈ db, ¬ liveMatch t fid x = true) : lookup_live db t fid = none := by
  unfold lookup_live
  exact List.find?_eq_none.mpr h

lemma countP_liveMatch_zero (t fid : String) {db : List FileRow}
    (h : ∀ r ∈ db, ¬ liveMatch t fid r = true) :
    db.countP (fun r => liveMatch t fid r) = 0 :=
  List.countP_eq_zero.mpr h

/-- A fresh (dedup-miss) ingest in disabled-auth mode with a tenant hint:
the full resulting store and response. -/
lemma ingest_disabled_fresh (H : List Nat → String) (keyIdOf : String → String)
    (api_keys : List (String × ApiKey)) (x_api_key : Option String)
    (master_key : Option String) (encryptFn : String → List Nat → List Nat)
    (st : Store) (hint : String) (sid src fn mm : Option String)
    (body : List Nat) (tmpName : String) (c n2 : Int)
    (hhint : trimStr hint ≠ "")
    (hfresh : ∀ r ∈ st.db, r.file_id ≠ H body) :
    ingest H keyIdOf false api_keys x_api_key master_key encryptFn st
      { tenant_hint := some hint, session_id := sid, source := src,
        filename := fn, mime := mm, body := some body, tmpName := tmpName }
      c n2 =
    .ok ({ db := st.db ++
            [{ file_id := H body, tenant_id := trimStr hint, session_id := sid,
               filename := fn.getD "file", mime := mm,
               size := (body.length : Int), sha256 := H body,
               created_at_ms := c, source := src,
               encrypted := master_key.isSome,
               storage_path :=
                 (if master_key.isSome then
                   "objects/" ++ trimStr hint ++ "/" ++ H body ++ ".age"
                 else "objects/" ++ trimStr hint ++ "/" ++ H body),
               deleted_at_ms := none, extract_status := some "pending",
               extract_updated_at_ms := some n2, extract_attempt := some 0,
               extract_error := none, annotations_json := none }],
           objects := st.objects ++
             [(if master_key.isSome then
                 "objects/" ++ trimStr hint ++ "/" ++ H body ++ ".age"
               else "objects/" ++ trimStr hint ++ "/" ++ H body,
               match master_key with
               | some key => encryptFn key body
               | none => body)],
           tmp := st.tmp.erase tmpName },
        { ok := true, file_id := H body, sha256 := H body,
          size := (body.length : Int), encrypted := master_key.isSome }) := by
  have hauth := auth_disabled_hint keyIdOf api_keys x_api_key hint hhint
  have hwrite : assert_can_write
      { tenant_id := trimStr hint, role := "admin", key_id := "dev" } =
      .ok () := rfl
  have hlook : lookup_live st.db (trimStr hint) (H body) = none :=
    lookup_live_none_of_fid _ hfresh
  have hany : ¬ (st.db.any (fun x => x.file_id == H body) = true) := by
    simp only [List.any_eq_true, beq_iff_eq, not_exists]
    intro x
    rintro ⟨hx, hfid⟩
    exact hfresh x hx hfid
  simp only [ingest, hauth, except_bind_ok, hwrite, hlook, insert_file,
    if_neg hany]
  cases master_key <;> rfl

/-- A dedup-hit ingest in disabled-auth mode: the temp file is erased and the
response is built from the existing row; nothing else changes. -/
lemma ingest_disabled_dedup (H : List Nat → String) (keyIdOf : String → String)
    (api_keys : List (String × ApiKey)) (x_api_key : Option String)
    (master_key : Option String) (encryptFn : String → List Nat → List Nat)
    (st : Store) (hint : String) (sid src fn mm : Option String)
    (body : List Nat) (tmpName : String) (c n2 : Int) (r : FileRow)
    (hhint : trimStr hint ≠ "")
    (hhit : lookup_live st.db (trimStr hint) (H body) = some r) :
    ingest H keyIdOf false api_keys x_api_key master_key encryptFn st
      { tenant_hint := some hint, session_id := sid, source := src,
        filename := fn, mime := mm, body := some body, tmpName := tmpName }
      c n2 =
    .ok ({ st with tmp := st.tmp.erase tmpName },
         { ok := true, file_id := r.file_id, sha256 := r.sha256,
           size := r.size, encrypted := r.encrypted }) := by
  have hauth := auth_disabled_hint keyIdOf api_keys x_api_key hint hhint
  have hwrite : assert_can_write
      { tenant_id := trimStr hint, role := "admin", key_id := "dev" } =
      .ok () := rfl
  simp only [ingest, hauth, except_bind_ok, hwrite, hhit]

/-- A dedup-miss ingest whose INSERT collides with the `file_id` primary key
(a row with the same `file_id` exists — live or tombstoned, this tenant or
another): the request fails with the SQLite constraint error. -/
lemma ingest_disabled_conflict (H : List Nat → String)
    (keyIdOf : String → String) (api_keys : List (String × ApiKey))
    (x_api_key : Option String) (master_key : Option String)
    (encryptFn : String → List Nat → List Nat) (st : Store) (hint : String)
    (sid src fn mm : Option String) (body : List Nat) (tmpName : String)
    (c n2 : Int) (hhint : trimStr hint ≠ "")
    (hmiss : lookup_live st.db (trimStr hint) (H body) = none)
    (hdup : ∃ r ∈ st.db, r.file_id = H body) :
    ingest H keyIdOf false api_keys x_api_key master_key encryptFn st
      { tenant_hint := some hint, session_id := sid, source := src,
        filename := fn, mime := mm, body := some body, tmpName := tmpName }
      c n2 =
    .error (.Db "UNIQUE constraint failed: files.file_id") := by
  have hauth := auth_disabled_hint keyIdOf api_keys x_api_key hint hhint
  have hwrite : assert_can_write
      { tenant_id := trimStr hint, role := "admin", key_id := "dev" } =
      .ok () := rfl
  have hany : st.db.any (fun x => x.file_id == H body) = true := by
    simp only [List.any_eq_true, beq_iff_eq]
    exact hdup
  simp only [ingest, hauth, except_bind_ok, hwrite, hmiss, insert_file,
    if_pos hany]

lemma map_if_eq_self {α : Type} {l : List α} {p : α → Bool} {f : α → α}
    (h : ∀ r ∈ l, ¬ p r = true) :
    l.map (fun r => if p r then f r else r) = l := by
  induction l with
  | nil => rfl
  | cons a t ih =>
    simp only [List.map_cons, if_neg (h a (by simp))]
    rw [ih (fun r hr => h r (by simp [hr]))]

lemma lookup_live_append_single {db₀ : List FileRow} {r : FileRow}
    {t fid : String} (h : ∀ x ∈ db₀, x.file_id ≠ fid)
    (hr : liveMatch t fid r = true) :
    lookup_live (db₀ ++ [r]) t fid = some r := by
  unfold lookup_live
  induction db₀ with
  | nil => simp [hr]
  | cons a t' ih =>
    have ha : ¬ liveMatch t fid a = true := by
      intro hm
      exact h a (by simp) (liveMatch_eq_true.mp hm).2.1
    rw [List.cons_append, List.find?_cons_of_neg _ ha]
    exact ih (fun x hx => h x (by simp [hx]))

/-! ## Claim theorems -/

/-- C9: every failure of the audit append path — absent configured path,
pathological path without a parent, directory-creation failure,
serialization failure, open failure, write failure — is swallowed:
`append_audit` always returns successfully, so the enclosing request's
outcome cannot be changed by it. -/
theorem C9_append_audit_never_errors (path : Option String)
    (has_parent : Bool) (io : AuditIo) (line : String) (log : List String) :
    ∃ log', append_audit path has_parent io line log = .ok log' := by
  cases path with
  | none => exact ⟨log, rfl⟩
  | some p =>
    cases io with
    | mk cd sz op wr =>
      cases has_parent <;> cases cd <;> cases sz <;> cases op <;> cases wr <;>
        exact ⟨_, rfl⟩

/-- C7 as stated is false for tombstone: tombstoning an absent file id (here:
an empty table) answers 200 with `tombstoned := false`, not NotFound. -/
theorem C7_counterexample :
    tombstone_core [] "t" "f" 5 =
      .ok ([], { ok := true, file_id := "f", tombstoned := false }) ∧
    tombstone_core [] "t" "f" 5 ≠
      (.error .NotFound : Except AppError (List FileRow × TombstoneResponse)) := by
  constructor
  · rfl
  · decide

/-- C7 amended: when a targeted update affects 0 rows (record absent or
tombstoned), `set_annotations` and `set_extract_status` answer NotFound, but
`tombstone` answers 200 with `tombstoned := false` and leaves the table
unchanged. -/
theorem C7_zero_rows_not_found (db : List FileRow)
    (tenant fid json status : String) (err : Option String) (now ts : Int)
    (hfid : trimStr fid ≠ "") (hstatus : trimStr status ≠ "")
    (hnolive : ∀ r ∈ db, ¬ liveMatch tenant (trimStr fid) r = true) :
    upsert_annotations_core db tenant fid json now = .error .NotFound ∧
    set_extract_status_core db tenant fid status err now = .error .NotFound ∧
    tombstone_core db tenant fid ts =
      .ok (db, { ok := true, file_id := trimStr fid, tombstoned := false }) := by
  have hcount := countP_liveMatch_zero tenant (trimStr fid) hnolive
  refine ⟨?_, ?_, ?_⟩
  · unfold upsert_annotations_core
    rw [if_neg hfid]
    simp [hcount]
  · unfold set_extract_status_core
    rw [if_neg hfid, if_neg hstatus]
    simp [hcount]
  · unfold tombstone_core
    rw [if_neg hfid]
    simp only [hcount, map_if_eq_self hnolive]
    rfl

/-- C7 witness: concrete instance of the amended statement. -/
theorem C7_zero_rows_not_found_witness :
    upsert_annotations_core [] "t" "f" "null" 3 = .error .NotFound ∧
    set_extract_status_core [] "t" "f" "done" none 3 = .error .NotFound ∧
    tombstone_core [] "t" "f" 4 =
      .ok ([], { ok := true, file_id := "f", tombstoned := false }) :=
  C7_zero_rows_not_found [] "t" "f" "null" "done" none 3 4 (by decide)
    (by decide) (by intro r hr; simp at hr)

/-- C6: a successful annotations upsert rewrites `annotations_json` and
`extract_updated_at_ms` on the addressed live record and leaves every other
field — in particular `extract_attempt` and `extract_status` — and every
other row unchanged. -/
theorem C6_upsert_annotations_frame (db : List FileRow)
    (tenant fid json : String) (now : Int)
    (hfid : trimStr fid ≠ "")
    (hlive : ∃ r ∈ db, liveMatch tenant (trimStr fid) r = true) :
    ∃ db2, upsert_annotations_core db tenant fid json now =
        .ok (db2,
          { ok := true, file_id := trimStr fid, updated_at_ms := now }) ∧
      List.Forall₂ (fun r r2 : FileRow =>
        r2.file_id = r.file_id ∧ r2.tenant_id = r.tenant_id ∧
        r2.session_id = r.session_id ∧ r2.filename = r.filename ∧
        r2.mime = r.mime ∧ r2.size = r.size ∧ r2.sha256 = r.sha256 ∧
        r2.created_at_ms = r.created_at_ms ∧ r2.source = r.source ∧
        r2.encrypted = r.encrypted ∧ r2.storage_path = r.storage_path ∧
        r2.deleted_at_ms = r.deleted_at_ms ∧
        r2.extract_status = r.extract_status ∧
        r2.extract_attempt = r.extract_attempt ∧
        r2.extract_error = r.extract_error ∧
        (liveMatch tenant (trimStr fid) r = true →
          r2.annotations_json = some json ∧
          r2.extract_updated_at_ms = some now) ∧
        (liveMatch tenant (trimStr fid) r = false → r2 = r)) db db2 := by
  have hn : ¬ db.countP (fun r => liveMatch tenant (trimStr fid) r) = 0 := by
    intro h0
    rw [List.countP_eq_zero] at h0
    rcases hlive with ⟨r, hr, hm⟩
    exact h0 r hr hm
  unfold upsert_annotations_core
  rw [if_neg hfid, if_neg hn]
  refine ⟨_, rfl, ?_⟩
  rw [List.forall₂_map_right_iff, List.forall₂_same]
  intro r hr
  by_cases hm : liveMatch tenant (trimStr fid) r = true
  · simp [hm]
  · have hm' : liveMatch tenant (trimStr fid) r = false :=
      Bool.not_eq_true _ ▸ (by simpa using hm)
    simp [hm']

/-- C6 witness at a concrete one-row table. -/
theorem C6_upsert_annotations_frame_witness :
    ∃ db2, upsert_annotations_core
        [sampleRow] "t" "f" "null" 7 =
        .ok (db2, { ok := true, file_id := trimStr "f", updated_at_ms := 7 }) ∧
      List.Forall₂ (fun r r2 : FileRow =>
        r2.file_id = r.file_id ∧ r2.tenant_id = r.tenant_id ∧
        r2.session_id = r.session_id ∧ r2.filename = r.filename ∧
        r2.mime = r.mime ∧ r2.size = r.size ∧ r2.sha256 = r.sha256 ∧
        r2.created_at_ms = r.created_at_ms ∧ r2.source = r.source ∧
        r2.encrypted = r.encrypted ∧ r2.storage_path = r.storage_path ∧
        r2.deleted_at_ms = r.deleted_at_ms ∧
        r2.extract_status = r.extract_status ∧
        r2.extract_attempt = r.extract_attempt ∧
        r2.extract_error = r.extract_error ∧
        (liveMatch "t" (trimStr "f") r = true →
          r2.annotations_json = some "null" ∧
          r2.extract_updated_at_ms = some 7) ∧
        (liveMatch "t" (trimStr "f") r = false → r2 = r))
        [sampleRow] db2 :=
  C6_upsert_annotations_frame _ "t" "f" "null" 7 (by decide)
    ⟨sampleRow, by simp, by decide⟩

/-- Effect of one successful `set_extract_status` store operation: on every
addressed live row the status, error, update time are set and the attempt
counter is incremented by exactly one; other rows and the identifying and
ingest-time fields are untouched. -/
lemma set_extract_status_effect (db : List FileRow)
    (tenant fid status : String) (err : Option String) (now : Int)
    (hfid : trimStr fid ≠ "") (hstatus : trimStr status ≠ "")
    (hlive : ∃ r ∈ db, liveMatch tenant (trimStr fid) r = true) :
    ∃ db2, set_extract_status_core db tenant fid status err now =
        .ok (db2,
          { ok := true, file_id := trimStr fid, status := trimStr status }) ∧
      List.Forall₂ (fun r r2 : FileRow =>
        r2.file_id = r.file_id ∧ r2.tenant_id = r.tenant_id ∧
        r2.session_id = r.session_id ∧ r2.filename = r.filename ∧
        r2.mime = r.mime ∧ r2.size = r.size ∧ r2.sha256 = r.sha256 ∧
        r2.created_at_ms = r.created_at_ms ∧ r2.source = r.source ∧
        r2.encrypted = r.encrypted ∧ r2.storage_path = r.storage_path ∧
        r2.deleted_at_ms = r.deleted_at_ms ∧
        r2.annotations_json = r.annotations_json ∧
        (liveMatch tenant (trimStr fid) r = true →
          r2.extract_attempt = some (r.extract_attempt.getD 0 + 1) ∧
          r2.extract_status = some (trimStr status) ∧
          r2.extract_error = some (err.getD "") ∧
          r2.extract_updated_at_ms = some now) ∧
        (liveMatch tenant (trimStr fid) r = false → r2 = r)) db db2 := by
  have hn : ¬ db.countP (fun r => liveMatch tenant (trimStr fid) r) = 0 := by
    intro h0
    rw [List.countP_eq_zero] at h0
    rcases hlive with ⟨r, hr, hm⟩
    exact h0 r hr hm
  unfold set_extract_status_core
  rw [if_neg hfid, if_neg hstatus, if_neg hn]
  refine ⟨_, rfl, ?_⟩
  rw [List.forall₂_map_right_iff, List.forall₂_same]
  intro r hr
  by_cases hm : liveMatch tenant (trimStr fid) r = true
  · simp [hm]
  · have hm' : liveMatch tenant (trimStr fid) r = false := by
      simpa using hm
    simp [hm']

/-- Running a list of `set_extract_status` calls against the single live row
of its target: every call succeeds and the attempt counter accumulates one
increment per call. -/
lemma applyStatusCalls_attempt (tenant fid : String) (db₀ : List FileRow)
    (hfid : trimStr fid = fid) (hne : fid ≠ "")
    (hothers : ∀ x ∈ db₀, x.file_id ≠ fid) :
    ∀ (L : List (String × Option String × Int)) (r : FileRow) (a : Int),
      r.extract_attempt = some a →
      liveMatch tenant fid r = true →
      (∀ call ∈ L, trimStr call.1 ≠ "") →
      ∃ r', applyStatusCalls tenant fid L (db₀ ++ [r]) = .ok (db₀ ++ [r']) ∧
        liveMatch tenant fid r' = true ∧
        r'.extract_attempt = some (a + L.length) := by
  intro L
  induction L with
  | nil =>
    intro r a ha hr _
    exact ⟨r, rfl, hr, by simpa using ha⟩
  | cons call rest ih =>
    intro r a ha hr hL
    obtain ⟨status, err, now⟩ := call
    have hcount0 : db₀.countP (fun x => liveMatch tenant fid x) = 0 :=
      countP_liveMatch_zero tenant fid
        (fun x hx hm => hothers x hx (liveMatch_eq_true.mp hm).2.1)
    have hnomatch : ∀ x ∈ db₀, ¬ liveMatch tenant fid x = true :=
      fun x hx hm => hothers x hx (liveMatch_eq_true.mp hm).2.1
    have hstatus : trimStr status ≠ "" := hL (status, err, now) (by simp)
    have hn : ¬ ((db₀ ++ [r]).countP (fun x => liveMatch tenant fid x) = 0) := by
      rw [List.countP_append, hcount0, List.countP_cons_of_pos _ _ hr]
      simp
    have hcore : set_extract_status_core (db₀ ++ [r]) tenant fid status err
        now =
        .ok (db₀ ++
          [{ r with extract_status := some (trimStr status),
                    extract_updated_at_ms := some now,
                    extract_attempt := some (r.extract_attempt.getD 0 + 1),
                    extract_error := some (err.getD "") }],
          { ok := true, file_id := fid, status := trimStr status }) := by
      unfold set_extract_status_core
      rw [hfid, if_neg hne, if_neg hstatus, if_neg hn, List.map_append,
        map_if_eq_self hnomatch]
      simp [hr]
    have hr1 : liveMatch tenant fid
        { r with extract_status := some (trimStr status),
                 extract_updated_at_ms := some now,
                 extract_attempt := some (r.extract_attempt.getD 0 + 1),
                 extract_error := some (err.getD "") } = true := by
      rcases liveMatch_eq_true.mp hr with ⟨h1, h2, h3⟩
      exact liveMatch_eq_true.mpr ⟨h1, h2, h3⟩
    have haF : ({ r with extract_status := some (trimStr status),
                         extract_updated_at_ms := some now,
                         extract_attempt := some (r.extract_attempt.getD 0 + 1),
                         extract_error := some (err.getD "") }
        : FileRow).extract_attempt = some (a + 1) := by
      simp [ha]
    rcases ih _ (a + 1) haF hr1 (fun c hc => hL c (by simp [hc])) with
      ⟨r', happ, hr', hatt⟩
    refine ⟨r', ?_, hr', ?_⟩
    · unfold applyStatusCalls
      rw [hcore]
      exact happ
    · rw [hatt]
      congr 1
      simp only [List.length_cons]
      push_cast
      ring

/-- C5: a freshly ingested record starts with `extract_attempt = 0` (and
status "pending"); every successful `set_extract_status` call with non-empty
status increments the counter by exactly one while writing status, error,
and `extract_updated_at_ms`; hence after N successful calls the counter
equals N. -/
theorem C5_extract_attempt_after_n_calls (H : List Nat → String)
    (keyIdOf : String → String) (api_keys : List (String × ApiKey))
    (x_api_key : Option String) (master_key : Option String)
    (encryptFn : String → List Nat → List Nat) (st : Store) (hint : String)
    (sid src fn mm : Option String) (body : List Nat) (tmpName : String)
    (c n2 : Int)
    (hhint : trimStr hint ≠ "")
    (hfresh : ∀ r ∈ st.db, r.file_id ≠ H body)
    (hfid : trimStr (H body) = H body) (hfidne : H body ≠ "") :
    ∃ st₁ resp row, st₁.db = st.db ++ [row] ∧
      ingest H keyIdOf false api_keys x_api_key master_key encryptFn st
        { tenant_hint := some hint, session_id := sid, source := src,
          filename := fn, mime := mm, body := some body, tmpName := tmpName }
        c n2 = .ok (st₁, resp) ∧
      row.extract_attempt = some 0 ∧ row.extract_status = some "pending" ∧
      (∀ L : List (String × Option String × Int),
        (∀ call ∈ L, trimStr call.1 ≠ "") →
        ∃ r', applyStatusCalls (trimStr hint) (H body) L st₁.db =
            .ok (st.db ++ [r']) ∧
          lookup_live (st.db ++ [r']) (trimStr hint) (H body) = some r' ∧
          r'.extract_attempt = some (L.length : Int)) ∧
      (∀ (db' : List FileRow) (tenant' fid' status' : String)
          (err' : Option String) (now' : Int),
        trimStr fid' ≠ "" → trimStr status' ≠ "" →
        (∃ r ∈ db', liveMatch tenant' (trimStr fid') r = true) →
        ∃ db2, set_extract_status_core db' tenant' fid' status' err' now' =
            .ok (db2, { ok := true, file_id := trimStr fid',
                        status := trimStr status' }) ∧
          List.Forall₂ (fun r r2 : FileRow =>
            r2.file_id = r.file_id ∧ r2.tenant_id = r.tenant_id ∧
            r2.session_id = r.session_id ∧ r2.filename = r.filename ∧
            r2.mime = r.mime ∧ r2.size = r.size ∧ r2.sha256 = r.sha256 ∧
            r2.created_at_ms = r.created_at_ms ∧ r2.source = r.source ∧
            r2.encrypted = r.encrypted ∧ r2.storage_path = r.storage_path ∧
            r2.deleted_at_ms = r.deleted_at_ms ∧
            r2.annotations_json = r.annotations_json ∧
            (liveMatch tenant' (trimStr fid') r = true →
              r2.extract_attempt = some (r.extract_attempt.getD 0 + 1) ∧
              r2.extract_status = some (trimStr status') ∧
              r2.extract_error = some (err'.getD "") ∧
              r2.extract_updated_at_ms = some now') ∧
            (liveMatch tenant' (trimStr fid') r = false → r2 = r)) db' db2) := by
  rw [ingest_disabled_fresh H keyIdOf api_keys x_api_key master_key encryptFn
    st hint sid src fn mm body tmpName c n2 hhint hfresh]
  refine ⟨_, _, _, rfl, rfl, rfl, rfl, ?_, ?_⟩
  · intro L hL
    have hrowlive : liveMatch (trimStr hint) (H body)
        { file_id := H body, tenant_id := trimStr hint, session_id := sid,
          filename := fn.getD "file", mime := mm,
          size := (body.length : Int), sha256 := H body,
          created_at_ms := c, source := src,
          encrypted := master_key.isSome,
          storage_path :=
            (if master_key.isSome then
              "objects/" ++ trimStr hint ++ "/" ++ H body ++ ".age"
            else "objects/" ++ trimStr hint ++ "/" ++ H body),
          deleted_at_ms := none, extract_status := some "pending",
          extract_updated_at_ms := some n2, extract_attempt := some 0,
          extract_error := none, annotations_json := none } = true := by
      exact liveMatch_eq_true.mpr ⟨rfl, rfl, rfl⟩
    rcases applyStatusCalls_attempt (trimStr hint) (H body) st.db hfid hfidne
      hfresh L _ 0 rfl hrowlive hL with ⟨r', happ, hr', hatt⟩
    refine ⟨r', happ, ?_, ?_⟩
    · exact lookup_live_append_single hfresh hr'
    · rw [hatt]
      simp
  · intro db' tenant' fid' status' err' now' h1 h2 h3
    exact set_extract_status_effect db' tenant' fid' status' err' now' h1 h2 h3

/-- C5 witness at concrete inputs (empty store, tenant "t", body [1]). -/
theorem C5_extract_attempt_after_n_calls_witness :
    ∃ st₁ resp row, st₁.db = ([] : List FileRow) ++ [row] ∧
      ingest (fun _ => "f") (fun _ => "") false [] none none (fun _ b => b)
        { db := [], objects := [], tmp := [] }
        { tenant_hint := some "t", session_id := none, source := none,
          filename := none, mime := none, body := some [1], tmpName := "u" }
        0 0 = .ok (st₁, resp) ∧
      row.extract_attempt = some 0 ∧ row.extract_status = some "pending" ∧
      (∀ L : List (String × Option String × Int),
        (∀ call ∈ L, trimStr call.1 ≠ "") →
        ∃ r', applyStatusCalls (trimStr "t") ((fun _ => "f") [1]) L st₁.db =
            .ok (([] : List FileRow) ++ [r']) ∧
          lookup_live (([] : List FileRow) ++ [r']) (trimStr "t")
            ((fun _ => "f") [1]) = some r' ∧
          r'.extract_attempt = some (L.length : Int)) ∧
      (∀ (db' : List FileRow) (tenant' fid' status' : String)
          (err' : Option String) (now' : Int),
        trimStr fid' ≠ "" → trimStr status' ≠ "" →
        (∃ r ∈ db', liveMatch tenant' (trimStr fid') r = true) →
        ∃ db2, set_extract_status_core db' tenant' fid' status' err' now' =
            .ok (db2, { ok := true, file_id := trimStr fid',
                        status := trimStr status' }) ∧
          List.Forall₂ (fun r r2 : FileRow =>
            r2.file_id = r.file_id ∧ r2.tenant_id = r.tenant_id ∧
            r2.session_id = r.session_id ∧ r2.filename = r.filename ∧
            r2.mime = r.mime ∧ r2.size = r.size ∧ r2.sha256 = r.sha256 ∧
            r2.created_at_ms = r.created_at_ms ∧ r2.source = r.source ∧
            r2.encrypted = r.encrypted ∧ r2.storage_path = r.storage_path ∧
            r2.deleted_at_ms = r.deleted_at_ms ∧
            r2.annotations_json = r.annotations_json ∧
            (liveMatch tenant' (trimStr fid') r = true →
              r2.extract_attempt = some (r.extract_attempt.getD 0 + 1) ∧
              r2.extract_status = some (trimStr status') ∧
              r2.extract_error = some (err'.getD "") ∧
              r2.extract_updated_at_ms = some now') ∧
            (liveMatch tenant' (trimStr fid') r = false → r2 = r)) db' db2) :=
  C5_extract_attempt_after_n_calls (fun _ => "f") (fun _ => "") [] none none
    (fun _ b => b) { db := [], objects := [], tmp := [] } "t" none none none
    none [1] "u" 0 0 (by decide) (by simp) (by decide) (by decide)

/-- C4: re-ingesting the same bytes for the same tenant while the first
record is live is idempotent — the second call returns the same `file_id`,
`sha256`, `size` and `encrypted` flag, inserts no row, leaves the whole
metadata table (including `created_at_ms`) and the object store unchanged,
and deletes its own temp file.  The second request's other multipart fields
may differ arbitrarily. -/
theorem C4_reingest_idempotent (H : List Nat → String)
    (keyIdOf : String → String) (api_keys : List (String × ApiKey))
    (x_api_key : Option String) (master_key : Option String)
    (encryptFn : String → List Nat → List Nat) (st : Store) (hint : String)
    (sid src fn mm sid₂ src₂ fn₂ mm₂ : Option String) (body : List Nat)
    (tmp₁ tmp₂ : String) (c₁ n₁ c₂ n₂ : Int)
    (hhint : trimStr hint ≠ "")
    (hfresh : ∀ r ∈ st.db, r.file_id ≠ H body) :
    ∃ st₁ resp,
      ingest H keyIdOf false api_keys x_api_key master_key encryptFn st
        { tenant_hint := some hint, session_id := sid, source := src,
          filename := fn, mime := mm, body := some body, tmpName := tmp₁ }
        c₁ n₁ = .ok (st₁, resp) ∧
      ingest H keyIdOf false api_keys x_api_key master_key encryptFn st₁
        { tenant_hint := some hint, session_id := sid₂, source := src₂,
          filename := fn₂, mime := mm₂, body := some body, tmpName := tmp₂ }
        c₂ n₂ = .ok ({ st₁ with tmp := st₁.tmp.erase tmp₂ }, resp) ∧
      resp = { ok := true, file_id := H body, sha256 := H body,
               size := (body.length : Int),
               encrypted := master_key.isSome } := by
  refine ⟨_, _,
    ingest_disabled_fresh H keyIdOf api_keys x_api_key master_key encryptFn
      st hint sid src fn mm body tmp₁ c₁ n₁ hhint hfresh, ?_, rfl⟩
  have hauth := auth_disabled_hint keyIdOf api_keys x_api_key hint hhint
  have hwrite : assert_can_write
      { tenant_id := trimStr hint, role := "admin", key_id := "dev" } =
      .ok () := rfl
  have hmatch : liveMatch (trimStr hint) (H body)
      { file_id := H body, tenant_id := trimStr hint, session_id := sid,
        filename := fn.getD "file", mime := mm, size := (body.length : Int),
        sha256 := H body, created_at_ms := c₁, source := src,
        encrypted := master_key.isSome,
        storage_path := (if master_key.isSome then
            "objects/" ++ trimStr hint ++ "/" ++ H body ++ ".age"
          else "objects/" ++ trimStr hint ++ "/" ++ H body),
        deleted_at_ms := none, extract_status := some "pending",
        extract_updated_at_ms := some n₁, extract_attempt := some 0,
        extract_error := none, annotations_json := none } = true :=
    liveMatch_eq_true.mpr ⟨rfl, rfl, rfl⟩
  have hhit := lookup_live_append_single hfresh hmatch
  simp only [ingest, hauth, except_bind_ok, hwrite, hhit]

/-- C4 witness at concrete inputs (empty store, tenant "t", body [1]). -/
theorem C4_reingest_idempotent_witness :
    ∃ st₁ resp,
      ingest (fun _ => "f") (fun _ => "") false [] none none (fun _ b => b)
        { db := [], objects := [], tmp := [] }
        { tenant_hint := some "t", session_id := none, source := none,
          filename := none, mime := none, body := some [1], tmpName := "u1" }
        0 0 = .ok (st₁, resp) ∧
      ingest (fun _ => "f") (fun _ => "") false [] none none (fun _ b => b)
        st₁
        { tenant_hint := some "t", session_id := some "s", source := none,
          filename := some "g", mime := none, body := some [1],
          tmpName := "u2" }
        3 4 = .ok ({ st₁ with tmp := st₁.tmp.erase "u2" }, resp) ∧
      resp = { ok := true, file_id := "f", sha256 := "f",
               size := (1 : Int), encrypted := false } :=
  C4_reingest_idempotent (fun _ => "f") (fun _ => "") [] none none
    (fun _ b => b) { db := [], objects := [], tmp := [] } "t" none none none
    none (some "s") none (some "g") none [1] "u1" "u2" 0 0 3 4 (by decide)
    (by simp)

/-- C1 (documents the code bug): reads are tenant-scoped — after tenant T1
ingests bytes B, tenant T2's dedup lookup and meta read see nothing — but
T2's ingest of the same bytes does NOT succeed: the schema's
`file_id TEXT PRIMARY KEY` makes the INSERT collide with T1's row and the
request fails with a Db error, contradicting per-(tenant_id, file_id)
uniqueness. -/
theorem C1_cross_tenant_ingest_fails (H : List Nat → String)
    (keyIdOf : String → String) (api_keys : List (String × ApiKey))
    (x_api_key : Option String) (master_key : Option String)
    (encryptFn : String → List Nat → List Nat) (st : Store) (t1 t2 : String)
    (sid src fn mm sid₂ src₂ fn₂ mm₂ : Option String) (body : List Nat)
    (tmp₁ tmp₂ : String) (c₁ n₁ c₂ n₂ : Int)
    (h1 : trimStr t1 ≠ "") (h2 : trimStr t2 ≠ "")
    (hne : trimStr t1 ≠ trimStr t2)
    (hfresh : ∀ r ∈ st.db, r.file_id ≠ H body)
    (hfid : trimStr (H body) = H body) (hfidne : H body ≠ "") :
    ∃ st₁ resp,
      ingest H keyIdOf false api_keys x_api_key master_key encryptFn st
        { tenant_hint := some t1, session_id := sid, source := src,
          filename := fn, mime := mm, body := some body, tmpName := tmp₁ }
        c₁ n₁ = .ok (st₁, resp) ∧
      lookup_live st₁.db (trimStr t2) (H body) = none ∧
      meta_core st₁.db (trimStr t2) (H body) = .error .NotFound ∧
      ingest H keyIdOf false api_keys x_api_key master_key encryptFn st₁
        { tenant_hint := some t2, session_id := sid₂, source := src₂,
          filename := fn₂, mime := mm₂, body := some body, tmpName := tmp₂ }
        c₂ n₂ = .error (.Db "UNIQUE constraint failed: files.file_id") := by
  refine ⟨_, _,
    ingest_disabled_fresh H keyIdOf api_keys x_api_key master_key encryptFn
      st t1 sid src fn mm body tmp₁ c₁ n₁ h1 hfresh, ?_, ?_, ?_⟩
  all_goals {
    have hnone : ∀ x ∈ st.db ++
        [{ file_id := H body, tenant_id := trimStr t1, session_id := sid,
           filename := fn.getD "file", mime := mm,
           size := (body.length : Int), sha256 := H body,
           created_at_ms := c₁, source := src,
           encrypted := master_key.isSome,
           storage_path := (if master_key.isSome then
               "objects/" ++ trimStr t1 ++ "/" ++ H body ++ ".age"
             else "objects/" ++ trimStr t1 ++ "/" ++ H body),
           deleted_at_ms := none, extract_status := some "pending",
           extract_updated_at_ms := some n₁, extract_attempt := some 0,
           extract_error := none, annotations_json := none }],
        ¬ liveMatch (trimStr t2) (H body) x = true := by
      intro x hx hm
      rcases List.mem_append.mp hx with hx0 | hx1
      · exact hfresh x hx0 (liveMatch_eq_true.mp hm).2.1
      · rw [List.mem_singleton.mp hx1] at hm
        exact hne (liveMatch_eq_true.mp hm).1
    first
    | exact lookup_live_none hnone
    | (unfold meta_core
       rw [hfid, if_neg hfidne, lookup_live_none hnone])
    | exact ingest_disabled_conflict H keyIdOf api_keys x_api_key master_key
        encryptFn _ t2 sid₂ src₂ fn₂ mm₂ body tmp₂ c₂ n₂ h2
        (lookup_live_none hnone)
        ⟨_, List.mem_append_right _ (List.mem_singleton_self _), rfl⟩
  }

/-- C1 witness: tenants "a" and "b", bytes [1], empty initial store. -/
theorem C1_cross_tenant_ingest_fails_witness :
    ∃ st₁ resp,
      ingest (fun _ => "f") (fun _ => "") false [] none none (fun _ b => b)
        { db := [], objects := [], tmp := [] }
        { tenant_hint := some "a", session_id := none, source := none,
          filename := none, mime := none, body := some [1], tmpName := "u1" }
        0 0 = .ok (st₁, resp) ∧
      lookup_live st₁.db "b" "f" = none ∧
      meta_core st₁.db "b" "f" = .error .NotFound ∧
      ingest (fun _ => "f") (fun _ => "") false [] none none (fun _ b => b)
        st₁
        { tenant_hint := some "b", session_id := none, source := none,
          filename := none, mime := none, body := some [1], tmpName := "u2" }
        3 4 = .error (.Db "UNIQUE constraint failed: files.file_id") :=
  C1_cross_tenant_ingest_fails (fun _ => "f") (fun _ => "") [] none none
    (fun _ b => b) { db := [], objects := [], tmp := [] } "a" "b" none none
    none none none none none none [1] "u1" "u2" 0 0 3 4 (by decide)
    (by decide) (by decide) (by simp) (by decide) (by decide)

/-- C2 (documents the code bug): after tombstoning, the dedup lookup indeed
ignores the tombstoned row (the claim's first half), but re-ingesting the
same bytes does NOT insert a new record: the tombstoned row still occupies
the `file_id` primary key, so the INSERT fails with a Db error instead of
creating a row with a fresh `created_at_ms`. -/
theorem C2_reingest_after_tombstone_fails (H : List Nat → String)
    (keyIdOf : String → String) (api_keys : List (String × ApiKey))
    (x_api_key : Option String) (master_key : Option String)
    (encryptFn : String → List Nat → List Nat) (st : Store) (t : String)
    (sid src fn mm sid₂ src₂ fn₂ mm₂ : Option String) (body : List Nat)
    (tmp₁ tmp₂ : String) (c₁ n₁ c₂ n₂ ts : Int)
    (ht : trimStr t ≠ "")
    (hfresh : ∀ r ∈ st.db, r.file_id ≠ H body)
    (hfid : trimStr (H body) = H body) (hfidne : H body ≠ "") :
    ∃ st₁ resp db₂,
      ingest H keyIdOf false api_keys x_api_key master_key encryptFn st
        { tenant_hint := some t, session_id := sid, source := src,
          filename := fn, mime := mm, body := some body, tmpName := tmp₁ }
        c₁ n₁ = .ok (st₁, resp) ∧
      tombstone_core st₁.db (trimStr t) (H body) ts =
        .ok (db₂, { ok := true, file_id := H body, tombstoned := true }) ∧
      lookup_live db₂ (trimStr t) (H body) = none ∧
      ingest H keyIdOf false api_keys x_api_key master_key encryptFn
        { db := db₂, objects := st₁.objects, tmp := st₁.tmp }
        { tenant_hint := some t, session_id := sid₂, source := src₂,
          filename := fn₂, mime := mm₂, body := some body, tmpName := tmp₂ }
        c₂ n₂ = .error (.Db "UNIQUE constraint failed: files.file_id") := by
  refine ⟨_, _,
    st.db ++
      [{ file_id := H body, tenant_id := trimStr t, session_id := sid,
         filename := fn.getD "file", mime := mm,
         size := (body.length : Int), sha256 := H body,
         created_at_ms := c₁, source := src,
         encrypted := master_key.isSome,
         storage_path := (if master_key.isSome then
             "objects/" ++ trimStr t ++ "/" ++ H body ++ ".age"
           else "objects/" ++ trimStr t ++ "/" ++ H body),
         deleted_at_ms := some ts, extract_status := some "pending",
         extract_updated_at_ms := some n₁, extract_attempt := some 0,
         extract_error := none, annotations_json := none }],
    ingest_disabled_fresh H keyIdOf api_keys x_api_key master_key encryptFn
      st t sid src fn mm body tmp₁ c₁ n₁ ht hfresh, ?_, ?_, ?_⟩
  · -- the tombstone marks exactly the fresh row
    have hnomatch : ∀ x ∈ st.db, ¬ liveMatch (trimStr t) (H body) x = true :=
      fun x hx hm => hfresh x hx (liveMatch_eq_true.mp hm).2.1
    have hmatch : liveMatch (trimStr t) (H body)
        { file_id := H body, tenant_id := trimStr t, session_id := sid,
          filename := fn.getD "file", mime := mm,
          size := (body.length : Int), sha256 := H body,
          created_at_ms := c₁, source := src,
          encrypted := master_key.isSome,
          storage_path := (if master_key.isSome then
              "objects/" ++ trimStr t ++ "/" ++ H body ++ ".age"
            else "objects/" ++ trimStr t ++ "/" ++ H body),
          deleted_at_ms := none, extract_status := some "pending",
          extract_updated_at_ms := some n₁, extract_attempt := some 0,
          extract_error := none, annotations_json := none } = true :=
      liveMatch_eq_true.mpr ⟨rfl, rfl, rfl⟩
    unfold tombstone_core
    rw [hfid, if_neg hfidne, List.map_append, map_if_eq_self hnomatch,
      List.countP_append, countP_liveMatch_zero (trimStr t) (H body) hnomatch,
      List.countP_cons_of_pos _ _ hmatch]
    simp [hmatch]
  · -- the tombstoned row is invisible to the dedup lookup
    apply lookup_live_none
    intro x hx hm
    rcases List.mem_append.mp hx with hx0 | hx1
    · exact hfresh x hx0 (liveMatch_eq_true.mp hm).2.1
    · rw [List.mem_singleton.mp hx1] at hm
      have := (liveMatch_eq_true.mp hm).2.2
      simp at this
  · -- the re-ingest collides with the primary key held by the tombstone
    apply ingest_disabled_conflict H keyIdOf api_keys x_api_key master_key
      encryptFn _ t sid₂ src₂ fn₂ mm₂ body tmp₂ c₂ n₂ ht
    · apply lookup_live_none
      intro x hx hm
      rcases List.mem_append.mp hx with hx0 | hx1
      · exact hfresh x hx0 (liveMatch_eq_true.mp hm).2.1
      · rw [List.mem_singleton.mp hx1] at hm
        have := (liveMatch_eq_true.mp hm).2.2
        simp at this
    · exact ⟨_, List.mem_append_right _ (List.mem_singleton_self _), rfl⟩

/-- C2 witness: tenant "t", bytes [1], empty initial store. -/
theorem C2_reingest_after_tombstone_fails_witness :
    ∃ st₁ resp db₂,
      ingest (fun _ => "f") (fun _ => "") false [] none none (fun _ b => b)
        { db := [], objects := [], tmp := [] }
        { tenant_hint := some "t", session_id := none, source := none,
          filename := none, mime := none, body := some [1], tmpName := "u1" }
        0 0 = .ok (st₁, resp) ∧
      tombstone_core st₁.db "t" "f" 9 =
        .ok (db₂, { ok := true, file_id := "f", tombstoned := true }) ∧
      lookup_live db₂ "t" "f" = none ∧
      ingest (fun _ => "f") (fun _ => "") false [] none none (fun _ b => b)
        { db := db₂, objects := st₁.objects, tmp := st₁.tmp }
        { tenant_hint := some "t", session_id := none, source := none,
          filename := none, mime := none, body := some [1], tmpName := "u2" }
        3 4 = .error (.Db "UNIQUE constraint failed: files.file_id") :=
  C2_reingest_after_tombstone_fails (fun _ => "f") (fun _ => "") [] none none
    (fun _ b => b) { db := [], objects := [], tmp := [] } "t" none none none
    none none none none none [1] "u1" "u2" 0 0 3 4 9 (by decide) (by simp)
    (by decide) (by decide)

/-- C10: with API-key auth disabled every per-file_id endpoint resolves auth
with NO tenant hint and therefore operates on tenant "default"; a file
ingested under a non-default multipart tenant hint is unreachable through
all of them — meta, download, link creation, annotations, extract-status
(NotFound) and tombstone (0 rows affected, `tombstoned := false`). -/
theorem C10_disabled_auth_default_tenant (H : List Nat → String)
    (keyIdOf : String → String) (api_keys : List (String × ApiKey))
    (x_api_key : Option String) (master_key : Option String)
    (encryptFn : String → List Nat → List Nat)
    (hmacFn : List Nat → List Nat → List Nat) (sk : List Nat)
    (public_base_url : Option String) (st : Store) (hint : String)
    (sid src fn mm : Option String) (body : List Nat) (tmpName : String)
    (json : String) (ttl : Option Nat) (c n2 now ts : Int)
    (hhint : trimStr hint ≠ "") (hdef : trimStr hint ≠ "default")
    (hdb : ∀ r ∈ st.db, r.tenant_id ≠ "default")
    (hfresh : ∀ r ∈ st.db, r.file_id ≠ H body)
    (hfid : trimStr (H body) = H body) (hfidne : H body ≠ "") :
    auth_from_headers keyIdOf false api_keys x_api_key none =
      .ok { tenant_id := "default", role := "admin", key_id := "dev" } ∧
    ∃ st₁ resp,
      ingest H keyIdOf false api_keys x_api_key master_key encryptFn st
        { tenant_hint := some hint, session_id := sid, source := src,
          filename := fn, mime := mm, body := some body, tmpName := tmpName }
        c n2 = .ok (st₁, resp) ∧
      meta keyIdOf false api_keys x_api_key st₁.db (H body) =
        .error .NotFound ∧
      download keyIdOf false api_keys x_api_key master_key st₁.db st₁.objects
        (H body) = .error .NotFound ∧
      create_link hmacFn keyIdOf false api_keys x_api_key (some sk)
        public_base_url st₁.db (H body) ttl now = .error .NotFound ∧
      upsert_annotations keyIdOf false api_keys x_api_key st₁.db (H body)
        json now = .error .NotFound ∧
      set_extract_status keyIdOf false api_keys x_api_key st₁.db (H body)
        "done" none now = .error .NotFound ∧
      tombstone keyIdOf false api_keys x_api_key st₁.db (H body) ts =
        .ok (st₁.db,
          { ok := true, file_id := H body, tombstoned := false }) := by
  have hauth := auth_disabled_none keyIdOf api_keys x_api_key
  have hread : assert_can_read
      { tenant_id := "default", role := "admin", key_id := "dev" } =
      .ok () := rfl
  have hwrite : assert_can_write
      { tenant_id := "default", role := "admin", key_id := "dev" } =
      .ok () := rfl
  have hnl : ∀ x ∈ st.db ++
      [{ file_id := H body, tenant_id := trimStr hint, session_id := sid,
         filename := fn.getD "file", mime := mm,
         size := (body.length : Int), sha256 := H body,
         created_at_ms := c, source := src,
         encrypted := master_key.isSome,
         storage_path := (if master_key.isSome then
             "objects/" ++ trimStr hint ++ "/" ++ H body ++ ".age"
           else "objects/" ++ trimStr hint ++ "/" ++ H body),
         deleted_at_ms := none, extract_status := some "pending",
         extract_updated_at_ms := some n2, extract_attempt := some 0,
         extract_error := none, annotations_json := none }],
      ¬ liveMatch "default" (H body) x = true := by
    intro x hx hm
    rcases List.mem_append.mp hx with hx0 | hx1
    · exact hdb x hx0 (liveMatch_eq_true.mp hm).1
    · rw [List.mem_singleton.mp hx1] at hm
      exact hdef (liveMatch_eq_true.mp hm).1
  have hany : ∀ (db : List FileRow),
      (∀ x ∈ db, ¬ liveMatch "default" (H body) x = true) →
      ¬ (db.any (liveMatch "default" (H body)) = true) := by
    intro db h
    simp only [List.any_eq_true, not_exists]
    intro x
    rintro ⟨hx, hm⟩
    exact h x hx hm
  refine ⟨rfl, _, _,
    ingest_disabled_fresh H keyIdOf api_keys x_api_key master_key encryptFn
      st hint sid src fn mm body tmpName c n2 hhint hfresh,
    ?_, ?_, ?_, ?_, ?_, ?_⟩
  · simp only [meta, hauth, except_bind_ok, hread]
    unfold meta_core
    rw [hfid, if_neg hfidne, lookup_live_none hnl]
  · simp only [download, hauth, except_bind_ok, hread]
    rw [hfid, if_neg hfidne]
    unfold download_core
    rw [lookup_live_none hnl]
  · simp only [create_link, hauth, except_bind_ok, hwrite]
    unfold create_link_core
    simp only [hfid, if_neg hfidne, if_pos (hany _ hnl)]
  · simp only [upsert_annotations, hauth, except_bind_ok, hwrite]
    unfold upsert_annotations_core
    rw [hfid, if_neg hfidne]
    simp [countP_liveMatch_zero "default" (H body) hnl]
  · simp only [set_extract_status, hauth, except_bind_ok, hwrite]
    unfold set_extract_status_core
    rw [hfid, if_neg hfidne, if_neg (by decide : ¬ trimStr "done" = "")]
    simp [countP_liveMatch_zero "default" (H body) hnl]
  · simp only [tombstone, hauth, except_bind_ok, hwrite]
    unfold tombstone_core
    rw [hfid, if_neg hfidne, map_if_eq_self hnl,
      countP_liveMatch_zero "default" (H body) hnl]
    rfl

/-- C10 witness: tenant hint "t", empty initial store, concrete arguments. -/
theorem C10_disabled_auth_default_tenant_witness :
    auth_from_headers (fun _ => "") false [] none none =
      .ok { tenant_id := "default", role := "admin", key_id := "dev" } ∧
    ∃ st₁ resp,
      ingest (fun _ => "f") (fun _ => "") false [] none none (fun _ b => b)
        { db := [], objects := [], tmp := [] }
        { tenant_hint := some "t", session_id := none, source := none,
          filename := none, mime := none, body := some [1], tmpName := "u" }
        0 0 = .ok (st₁, resp) ∧
      meta (fun _ => "") false [] none st₁.db "f" = .error .NotFound ∧
      download (fun _ => "") false [] none none st₁.db st₁.objects "f" =
        .error .NotFound ∧
      create_link (fun _ m => m) (fun _ => "") false [] none (some [0]) none
        st₁.db "f" none 5 = .error .NotFound ∧
      upsert_annotations (fun _ => "") false [] none st₁.db "f" "null" 5 =
        .error .NotFound ∧
      set_extract_status (fun _ => "") false [] none st₁.db "f" "done" none
        5 = .error .NotFound ∧
      tombstone (fun _ => "") false [] none st₁.db "f" 6 =
        .ok (st₁.db, { ok := true, file_id := "f", tombstoned := false }) :=
  C10_disabled_auth_default_tenant (fun _ => "f") (fun _ => "") [] none none
    (fun _ b => b) (fun _ m => m) [0] none
    { db := [], objects := [], tmp := [] } "t" none none none none [1] "u"
    "null" none 0 0 5 6 (by decide) (by decide) (by simp) (by simp)
    (by decide) (by decide)

lemma dropWhile_eq_self_of_all {l : List Nat} (h : ∀ b ∈ l, isWsB b = false) :
    l.dropWhile isWsB = l := by
  cases l with
  | nil => rfl
  | cons a t =>
    rw [List.dropWhile_cons, if_neg]
    simp [h a (by simp)]

lemma trimAsciiWsBytes_eq_self {l : List Nat}
    (h : ∀ b ∈ l, isWsB b = false) : trimAsciiWsBytes l = l := by
  unfold trimAsciiWsBytes
  rw [dropWhile_eq_self_of_all h,
    dropWhile_eq_self_of_all (fun b hb => h b (List.mem_reverse.mp hb)),
    List.reverse_reverse]

lemma sign_token_no_ws (hmacFn : List Nat → List Nat → List Nat)
    (k : List Nat) (p : DownloadTokenPayload) :
    ∀ b ∈ sign_token hmacFn k p, isWsB b = false := by
  intro b hb
  have halpha : ∀ x ∈ b64Alphabet, isWsB x = false := by decide
  unfold sign_token at hb
  rcases List.mem_append.mp hb with hA | hB
  · exact halpha b (b64encode_mem _ b hA)
  · rcases List.mem_cons.mp hB with rfl | hB'
    · rfl
    · exact halpha b (b64encode_mem _ b hB')

/-- C8: a download request whose record is live but whose `storage_path`
does not resolve to a file on disk answers NotFound, not InternalError —
through the shared core, through the authenticated handler (here with
API-key auth enabled and a reader key), and through a freshly signed public
download token. -/
theorem C8_missing_blob_not_found (master_key : Option String)
    (db : List FileRow) (objects : List (String × List Nat))
    (tenant fid : String) (row : FileRow) (keyIdOf : String → String)
    (key : String) (hmacFn : List Nat → List Nat → List Nat) (sk : List Nat)
    (p : DownloadTokenPayload) (now : Int)
    (hlive : lookup_live db tenant fid = some row)
    (hmissing : ∀ kv ∈ objects, kv.1 ≠ trimLeadingSlash row.storage_path)
    (hkey : trimStr key = key) (hkeyne : key ≠ "")
    (hfid : trimStr fid = fid) (hfidne : fid ≠ "")
    (hpt : bytesToStr p.tenant_id = tenant)
    (hpf : bytesToStr p.file_id = fid)
    (h34t : 34 ∉ p.tenant_id) (h34f : 34 ∉ p.file_id)
    (h256t : ∀ b ∈ p.tenant_id, b < 256) (h256f : ∀ b ∈ p.file_id, b < 256)
    (hmb : ∀ b ∈ hmacFn sk (b64encode (jsonSer p)), b < 256)
    (hexp : now < p.exp_ms) :
    download_core master_key db objects tenant fid = .error .NotFound ∧
    download keyIdOf true
      [(key, { key := key, tenant_id := tenant, role := some "reader" })]
      (some key) master_key db objects fid = .error .NotFound ∧
    public_download hmacFn (some sk) master_key db objects
      (sign_token hmacFn sk p) now = .error .NotFound := by
  have hany : ¬ (objects.any
      (fun kv => kv.1 == trimLeadingSlash row.storage_path) = true) := by
    simp only [List.any_eq_true, beq_iff_eq, not_exists]
    intro kv
    rintro ⟨hkv, heq⟩
    exact hmissing kv hkv heq
  have hcore : download_core master_key db objects tenant fid =
      .error .NotFound := by
    unfold download_core
    simp only [hlive, if_pos hany]
  refine ⟨hcore, ?_, ?_⟩
  · -- authenticated handler, API-key auth enabled, reader role
    have hauth : auth_from_headers keyIdOf true
        [(key, { key := key, tenant_id := tenant, role := some "reader" })]
        (some key) none =
        .ok { tenant_id := tenant, role := "reader",
              key_id := keyIdOf key } := by
      unfold auth_from_headers
      have hrole : lowerStr (trimStr "reader") = "reader" := rfl
      simp [Option.filter, hkey, hkeyne, normalize_role, hrole]
    have hread : assert_can_read
        { tenant_id := tenant, role := "reader", key_id := keyIdOf key } =
        .ok () := rfl
    simp only [download, hauth, except_bind_ok, hread, hfid,
      if_neg hfidne, hcore]
  · -- public download via a signed token
    have hv : verify_token hmacFn sk (sign_token hmacFn sk p) now = .ok p := by
      rw [verify_sign hmacFn sk p now h34t h34f h256t h256f hmb,
        if_neg (by omega)]
    unfold public_download
    rw [trimAsciiWsBytes_eq_self (sign_token_no_ws hmacFn sk p)]
    simp only [hv, except_bind_ok, hpt, hpf, hcore]

/-- C8 witness: one live record whose blob is absent (empty object store),
reader key "k", and a token for it signed with the identity HMAC stand-in. -/
theorem C8_missing_blob_not_found_witness :
    download_core none [sampleRow] [] "t" "f" = .error .NotFound ∧
    download (fun _ => "") true
      [("k", { key := "k", tenant_id := "t", role := some "reader" })]
      (some "k") none [sampleRow] [] "f" = .error .NotFound ∧
    public_download (fun _ m => m) (some [0]) none [sampleRow] []
      (sign_token (fun _ m => m) [0]
        { tenant_id := strBytes "t", file_id := strBytes "f", exp_ms := 9 })
      1 = .error .NotFound :=
  C8_missing_blob_not_found none [sampleRow] [] "t" "f" sampleRow
    (fun _ => "") "k" (fun _ m => m) [0]
    { tenant_id := strBytes "t", file_id := strBytes "f", exp_ms := 9 } 1
    (by decide) (by simp) (by decide) (by decide) (by decide) (by decide)
    (by decide) (by decide) (by decide) (by decide) (by decide) (by decide)
    (by decide) (by decide)

set_option maxRecDepth 8192 in
/-- C3 as stated is false: a single-bit change need not be rejected with
Unauthorized.  Flipping bit 6 of the token's `.` separator (byte 56 of this
concrete token) destroys the two-part structure, and `verify_token` rejects
with InvalidRequest (HTTP 400) instead. -/
theorem C3_counterexample :
    (sign_token (fun _ m => m) [0]
        { tenant_id := strBytes "t", file_id := strBytes "f",
          exp_ms := 9 }).set 56
        (((sign_token (fun _ m => m) [0]
          { tenant_id := strBytes "t", file_id := strBytes "f",
            exp_ms := 9 }).getD 56 0) ^^^ 2 ^ 6) ≠
      sign_token (fun _ m => m) [0]
        { tenant_id := strBytes "t", file_id := strBytes "f", exp_ms := 9 } ∧
    verify_token (fun _ m => m) [0]
      ((sign_token (fun _ m => m) [0]
          { tenant_id := strBytes "t", file_id := strBytes "f",
            exp_ms := 9 }).set 56
        (((sign_token (fun _ m => m) [0]
          { tenant_id := strBytes "t", file_id := strBytes "f",
            exp_ms := 9 }).getD 56 0) ^^^ 2 ^ 6)) 1 =
      .error (.InvalidRequest "invalid token") ∧
    (.error (.InvalidRequest "invalid token") :
        Except AppError DownloadTokenPayload) ≠ .error .Unauthorized := by
  refine ⟨by decide, by decide, by decide⟩

/-- C3 amended: a token minted by `sign_token` verifies iff `now < exp_ms`
(expiry rejects with Unauthorized); and every token differing from it in a
single bit is rejected — with Unauthorized when the damage reaches the
signature comparison, or with InvalidRequest when it breaks the token's
structure or Base64 — never accepted.  `hmb` and `hinj` state the
HMAC-SHA256 library contract used: digests are bytes, and distinct messages
do not collide under this key. -/
theorem C3_token_sign_verify (hmacFn : List Nat → List Nat → List Nat)
    (k : List Nat) (p : DownloadTokenPayload) (now : Int)
    (hT : ∀ b ∈ p.tenant_id, jsonSafeByte b)
    (hF : ∀ b ∈ p.file_id, jsonSafeByte b)
    (hmb : ∀ b ∈ hmacFn k (b64encode (jsonSer p)), b < 256)
    (hinj : ∀ m1 m2 : List Nat, hmacFn k m1 = hmacFn k m2 → m1 = m2) :
    (now < p.exp_ms →
      verify_token hmacFn k (sign_token hmacFn k p) now = .ok p) ∧
    (p.exp_ms ≤ now →
      verify_token hmacFn k (sign_token hmacFn k p) now =
        .error .Unauthorized) ∧
    (∀ i bit : Nat, i < (sign_token hmacFn k p).length → bit < 8 →
      (sign_token hmacFn k p).set i
          ((sign_token hmacFn k p).getD i 0 ^^^ 2 ^ bit) ≠
        sign_token hmacFn k p ∧
      (verify_token hmacFn k ((sign_token hmacFn k p).set i
          ((sign_token hmacFn k p).getD i 0 ^^^ 2 ^ bit)) now =
          .error .Unauthorized ∨
       verify_token hmacFn k ((sign_token hmacFn k p).set i
          ((sign_token hmacFn k p).getD i 0 ^^^ 2 ^ bit)) now =
          .error (.InvalidRequest "invalid token"))) := by
  have h34t : 34 ∉ p.tenant_id := fun hm => (hT 34 hm).2.2.1 rfl
  have h34f : 34 ∉ p.file_id := fun hm => (hF 34 hm).2.2.1 rfl
  have h256t : ∀ b ∈ p.tenant_id, b < 256 := by
    intro b hb
    have := (hT b hb).2.1
    omega
  have h256f : ∀ b ∈ p.file_id, b < 256 := by
    intro b hb
    have := (hF b hb).2.1
    omega
  refine ⟨?_, ?_, ?_⟩
  · intro hlt
    rw [verify_sign hmacFn k p now h34t h34f h256t h256f hmb,
      if_neg (by omega)]
  · intro hge
    rw [verify_sign hmacFn k p now h34t h34f h256t h256f hmb, if_pos hge]
  · intro i bit hi hbit
    exact verify_flip hmacFn k p now i bit hi hbit hmb hinj

/-- C3 witness for the amended statement at concrete inputs (identity HMAC
stand-in, key [0], payload tenant "t" / file "f" / expiry 9, now 1). -/
theorem C3_token_sign_verify_witness :
    ((1 : Int) < 9 →
      verify_token (fun _ m => m) [0]
        (sign_token (fun _ m => m) [0]
          { tenant_id := strBytes "t", file_id := strBytes "f",
            exp_ms := 9 }) 1 =
        .ok { tenant_id := strBytes "t", file_id := strBytes "f",
              exp_ms := 9 }) ∧
    ((9 : Int) ≤ 1 →
      verify_token (fun _ m => m) [0]
        (sign_token (fun _ m => m) [0]
          { tenant_id := strBytes "t", file_id := strBytes "f",
            exp_ms := 9 }) 1 = .error .Unauthorized) ∧
    (∀ i bit : Nat,
      i < (sign_token (fun _ m => m) [0]
        { tenant_id := strBytes "t", file_id := strBytes "f",
          exp_ms := 9 }).length → bit < 8 →
      (sign_token (fun _ m => m) [0]
          { tenant_id := strBytes "t", file_id := strBytes "f",
            exp_ms := 9 }).set i
          ((sign_token (fun _ m => m) [0]
            { tenant_id := strBytes "t", file_id := strBytes "f",
              exp_ms := 9 }).getD i 0 ^^^ 2 ^ bit) ≠
        sign_token (fun _ m => m) [0]
          { tenant_id := strBytes "t", file_id := strBytes "f",
            exp_ms := 9 } ∧
      (verify_token (fun _ m => m) [0]
          ((sign_token (fun _ m => m) [0]
            { tenant_id := strBytes "t", file_id := strBytes "f",
              exp_ms := 9 }).set i
            ((sign_token (fun _ m => m) [0]
              { tenant_id := strBytes "t", file_id := strBytes "f",
                exp_ms := 9 }).getD i 0 ^^^ 2 ^ bit)) 1 =
          .error .Unauthorized ∨
       verify_token (fun _ m => m) [0]
          ((sign_token (fun _ m => m) [0]
            { tenant_id := strBytes "t", file_id := strBytes "f",
              exp_ms := 9 }).set i
            ((sign_token (fun _ m => m) [0]
              { tenant_id := strBytes "t", file_id := strBytes "f",
                exp_ms := 9 }).getD i 0 ^^^ 2 ^ bit)) 1 =
          .error (.InvalidRequest "invalid token"))) :=
  C3_token_sign_verify (fun _ m => m) [0]
    { tenant_id := strBytes "t", file_id := strBytes "f", exp_ms := 9 } 1
    (by decide) (by decide) (fun b hb => b64encode_lt_256 b hb)
    (fun _ _ h => h)

end Rustfs
